import Mathlib

/-! # HD44780 character-LCD driver (`src/hd44780.c`)

A shallow embedding of the bit-banged HD44780 driver.  The driver's single
static record `hd44780_params` and the calls it makes to the GPIO / delay
primitives are made explicit: every driver function is a function on a
`World`, which holds the record and the chronological list of calls made to
the external primitives (`gpio_set`, `gpio_clear`, `sleep_ms`, ...).

Machine integers are natural numbers; every place where C truncates to
`uint8_t` is written as an explicit `% 256`.
-/

namespace HD44780

/-! ## Data model -/

/-- The record `struct hd44780_gpio`: one pin, given by port id and pin mask. -/
structure hd44780_gpio where
  port : Nat
  gpio : Nat
  deriving DecidableEq, Repr

/-- The record `struct hd44780_bus`: the eleven lines of the LCD bus. -/
structure hd44780_bus where
  rs : hd44780_gpio
  e : hd44780_gpio
  rnw : hd44780_gpio
  db7 : hd44780_gpio
  db6 : hd44780_gpio
  db5 : hd44780_gpio
  db4 : hd44780_gpio
  db3 : hd44780_gpio
  db2 : hd44780_gpio
  db1 : hd44780_gpio
  db0 : hd44780_gpio
  deriving DecidableEq, Repr

/-- The record `struct position_s`: driver-side cursor, both fields `uint8_t`. -/
structure position_s where
  x : Nat
  y : Nat
  deriving DecidableEq, Repr

/-- The static record `hd44780_params` of `hd44780.c`.  The C field `bus` is a
pointer to a caller-owned descriptor; here it is the descriptor it points to. -/
structure hd44780_params where
  width : Nat
  bus8 : Bool
  bus : hd44780_bus
  position : position_s
  deriving DecidableEq, Repr

/-- One call to an external primitive (libopencm3 GPIO/RCC, or `sleep_ms`). -/
inductive Event where
  | gpio_set (port gpio : Nat)
  | gpio_clear (port gpio : Nat)
  | sleep_ms (ms : Nat)
  | rcc_periph_clock_enable (clken : Nat)
  | gpio_mode_setup (port mode pull_up_down gpio : Nat)
  deriving DecidableEq, Repr

/-- Driver record plus the calls made so far to the external primitives,
oldest first. -/
structure World where
  params : hd44780_params
  trace : List Event
  deriving DecidableEq, Repr

/-! ## External primitives -/

/-- Records one external call at the end of the trace. -/
def emit (ev : Event) (w : World) : World :=
  { w with trace := w.trace ++ [ev] }

/-- External `gpio_set(port, gpio)`. -/
def gpio_set (port gpio : Nat) (w : World) : World :=
  emit (Event.gpio_set port gpio) w

/-- External `gpio_clear(port, gpio)`. -/
def gpio_clear (port gpio : Nat) (w : World) : World :=
  emit (Event.gpio_clear port gpio) w

/-- External `sleep_ms(ms)`. -/
def sleep_ms (ms : Nat) (w : World) : World :=
  emit (Event.sleep_ms ms) w

/-! ## Constants of `hd44780.c` -/

def HD44780_MAX_BUFFER_SIZE : Nat := 80

def CLEAR_DISPLAY : Nat := 0x01
def RETURN_HOME : Nat := 0x02
def ENTRY_MODE_SET : Nat := 0x04
def ENTRY_MODE_SH : Nat := 0x01
def ENTRY_MODE_ID : Nat := 0x02
def DISPLAY_CONTROL : Nat := 0x08
def DISPLAY_CONTROL_B : Nat := 0x01
def DISPLAY_CONTROL_C : Nat := 0x02
def DISPLAY_CONTROL_D : Nat := 0x04
def CURSOR_DISPLAY_SHIFT : Nat := 0x10
def CURSOR_DISPLAY_RL : Nat := 0x04
def CURSOR_DISPLAY_SC : Nat := 0x08
def FUNCTION_SET : Nat := 0x20
def FUNCTION_SET_F : Nat := 0x04
def FUNCTION_SET_N : Nat := 0x08
def FUNCTION_SET_DL : Nat := 0x10
def SET_CG_RAM_ADDR : Nat := 0x40
def CG_RAM_ADDR_MASK : Nat := 0x3F
def SET_DD_RAM_ADDR : Nat := 0x80
def DD_RAM_ADDR_MASK : Nat := 0x7F

/-! ## Bus transport -/

/-- Source `hd44780_write_half_byte(rs, data)`: one 4-bit bus cycle.  Only bits
3..0 of `data` are looked at. -/
def hd44780_write_half_byte (rs : Bool) (data : Nat) (w : World) : World :=
  let w := gpio_clear w.params.bus.rnw.port w.params.bus.rnw.gpio w
  let w := if rs then gpio_set w.params.bus.rs.port w.params.bus.rs.gpio w
    else gpio_clear w.params.bus.rs.port w.params.bus.rs.gpio w
  let w := if data &&& 0x08 ≠ 0 then gpio_set w.params.bus.db7.port w.params.bus.db7.gpio w
    else gpio_clear w.params.bus.db7.port w.params.bus.db7.gpio w
  let w := if data &&& 0x04 ≠ 0 then gpio_set w.params.bus.db6.port w.params.bus.db6.gpio w
    else gpio_clear w.params.bus.db6.port w.params.bus.db6.gpio w
  let w := if data &&& 0x02 ≠ 0 then gpio_set w.params.bus.db5.port w.params.bus.db5.gpio w
    else gpio_clear w.params.bus.db5.port w.params.bus.db5.gpio w
  let w := if data &&& 0x01 ≠ 0 then gpio_set w.params.bus.db4.port w.params.bus.db4.gpio w
    else gpio_clear w.params.bus.db4.port w.params.bus.db4.gpio w
  let w := gpio_set w.params.bus.e.port w.params.bus.e.gpio w
  let w := sleep_ms 1 w
  let w := gpio_clear w.params.bus.e.port w.params.bus.e.gpio w
  sleep_ms 1 w

/-- Source `hd44780_write_byte(rs, data)`: one 8-bit bus cycle. -/
def hd44780_write_byte (rs : Bool) (data : Nat) (w : World) : World :=
  let w := gpio_clear w.params.bus.rnw.port w.params.bus.rnw.gpio w
  let w := if rs then gpio_set w.params.bus.rs.port w.params.bus.rs.gpio w
    else gpio_clear w.params.bus.rs.port w.params.bus.rs.gpio w
  let w := if data &&& 0x80 ≠ 0 then gpio_set w.params.bus.db7.port w.params.bus.db7.gpio w
    else gpio_clear w.params.bus.db7.port w.params.bus.db7.gpio w
  let w := if data &&& 0x40 ≠ 0 then gpio_set w.params.bus.db6.port w.params.bus.db6.gpio w
    else gpio_clear w.params.bus.db6.port w.params.bus.db6.gpio w
  let w := if data &&& 0x20 ≠ 0 then gpio_set w.params.bus.db5.port w.params.bus.db5.gpio w
    else gpio_clear w.params.bus.db5.port w.params.bus.db5.gpio w
  let w := if data &&& 0x10 ≠ 0 then gpio_set w.params.bus.db4.port w.params.bus.db4.gpio w
    else gpio_clear w.params.bus.db4.port w.params.bus.db4.gpio w
  let w := if data &&& 0x08 ≠ 0 then gpio_set w.params.bus.db3.port w.params.bus.db3.gpio w
    else gpio_clear w.params.bus.db3.port w.params.bus.db3.gpio w
  let w := if data &&& 0x04 ≠ 0 then gpio_set w.params.bus.db2.port w.params.bus.db2.gpio w
    else gpio_clear w.params.bus.db2.port w.params.bus.db2.gpio w
  let w := if data &&& 0x02 ≠ 0 then gpio_set w.params.bus.db1.port w.params.bus.db1.gpio w
    else gpio_clear w.params.bus.db1.port w.params.bus.db1.gpio w
  let w := if data &&& 0x01 ≠ 0 then gpio_set w.params.bus.db0.port w.params.bus.db0.gpio w
    else gpio_clear w.params.bus.db0.port w.params.bus.db0.gpio w
  let w := gpio_set w.params.bus.e.port w.params.bus.e.gpio w
  let w := sleep_ms 1 w
  let w := gpio_clear w.params.bus.e.port w.params.bus.e.gpio w
  sleep_ms 1 w

/-- Source `hd44780_write(rs, data)`, `data : uint8_t`.  In 4-bit mode the
argument `data >> 4` is an `int` converted to `uint8_t`, and the second call
passes the whole byte. -/
def hd44780_write (rs : Bool) (data : Nat) (w : World) : World :=
  if w.params.bus8 then
    hd44780_write_byte rs data w
  else
    let w := hd44780_write_half_byte rs ((data >>> 4) % 256) w
    hd44780_write_half_byte rs data w

/-! ## Driver-side cursor -/

/-- Assignment `hd44780_params.position.x = x`. -/
def set_position_x (x : Nat) (w : World) : World :=
  { w with params := { w.params with position := { w.params.position with x := x } } }

/-- Assignment `hd44780_params.position.y = y`. -/
def set_position_y (y : Nat) (w : World) : World :=
  { w with params := { w.params with position := { w.params.position with y := y } } }

/-! ## Command layer -/

/-- Source `hd44780_busy()`: the read path is compiled out (`#if 0`). -/
def hd44780_busy (w : World) : Bool × World :=
  let w := sleep_ms 1 w
  (true, w)

/-- Source `hd44780_clear()`. -/
def hd44780_clear (w : World) : World :=
  let w := set_position_x 0 w
  let w := set_position_y 0 w
  hd44780_write false CLEAR_DISPLAY w

/-- Source `hd44780_home()`. -/
def hd44780_home (w : World) : World :=
  let w := set_position_x 0 w
  let w := set_position_y 0 w
  let w := hd44780_write false RETURN_HOME w
  sleep_ms 2 w

/-- Source `hd44780_mode(inc, shift)`. -/
def hd44780_mode (inc shift : Bool) (w : World) : World :=
  let temp := ENTRY_MODE_SET
  let temp := if inc then (temp ||| ENTRY_MODE_ID) % 256 else temp
  let temp := if shift then (temp ||| ENTRY_MODE_SH) % 256 else temp
  hd44780_write false temp w

/-- Source `hd44780_dispay_ctrl(display_on, show_cursor, cursor_blink)`. -/
def hd44780_dispay_ctrl (display_on show_cursor cursor_blink : Bool) (w : World) : World :=
  let temp := DISPLAY_CONTROL
  let temp := if display_on then (temp ||| DISPLAY_CONTROL_D) % 256 else temp
  let temp := if show_cursor then (temp ||| DISPLAY_CONTROL_C) % 256 else temp
  let temp := if cursor_blink then (temp ||| DISPLAY_CONTROL_B) % 256 else temp
  hd44780_write false temp w

/-- Source `hd44780_cursor_ctrl(display, right)`. -/
def hd44780_cursor_ctrl (display right : Bool) (w : World) : World :=
  let temp := CURSOR_DISPLAY_SHIFT
  let temp := if display then (temp ||| CURSOR_DISPLAY_SC) % 256 else temp
  let temp := if right then (temp ||| CURSOR_DISPLAY_RL) % 256 else temp
  hd44780_write false temp w

/-- Source `hd44780_fnc(bus8, num_lines, big_fonts)`, `num_lines : uint8_t`.
The test `(num_lines - 1) > 0` is evaluated in `int`. -/
def hd44780_fnc (bus8 : Bool) (num_lines : Nat) (big_fonts : Bool) (w : World) : World :=
  let temp := FUNCTION_SET
  let temp := if bus8 then (temp ||| FUNCTION_SET_DL) % 256 else temp
  let temp := if ((num_lines : Int) - 1) > 0 then (temp ||| FUNCTION_SET_N) % 256 else temp
  let temp := if big_fonts then (temp ||| FUNCTION_SET_F) % 256 else temp
  hd44780_write false temp w

/-- Source `hd44780_set_CGRAM_addr(addr)`, `addr : uint8_t`. -/
def hd44780_set_CGRAM_addr (addr : Nat) (w : World) : World :=
  let temp := SET_CG_RAM_ADDR
  let temp := (temp + (addr &&& CG_RAM_ADDR_MASK)) % 256
  hd44780_write false temp w

/-- Source `hd44780_set_DDRAM_addr(addr)`, `addr : uint8_t`. -/
def hd44780_set_DDRAM_addr (addr : Nat) (w : World) : World :=
  let temp := SET_DD_RAM_ADDR
  let temp := (temp + (addr &&& DD_RAM_ADDR_MASK)) % 256
  hd44780_write false temp w

/-! ## Cursor / addressing engine -/

/-- Source `hd44780_gotoxy(x, y)`, both `uint8_t`.  The `if` is the
end-of-line wrap (`y++` wraps at 256); the `match` is the `switch (y)`, whose
result is the triple (column, row base address, record after the case's
assignment to `position.y`).  `case 0` assigns nothing to `position.y`.  The
argument `x + y` of `hd44780_set_DDRAM_addr` is an `int` converted to
`uint8_t`. -/
def hd44780_gotoxy (x y : Nat) (w : World) : World :=
  let xy : Nat × Nat := if x ≥ w.params.width then (0, (y + 1) % 256) else (x, y)
  let r : Nat × Nat × World :=
    match xy.2 with
    | 0 => (xy.1, 0x00, w)
    | 1 => (xy.1, 0x40, set_position_y 1 w)
    | _ => (0, 0x00, set_position_y 0 w)
  let w := hd44780_set_DDRAM_addr ((r.1 + r.2.1) % 256) r.2.2
  set_position_x r.1 w

/-- Source `hd44780_nl()`: `uint8_t y = position.y + 1`. -/
def hd44780_nl (w : World) : World :=
  let y := (w.params.position.y + 1) % 256
  hd44780_gotoxy 0 y w

/-! ## Text layer -/

/-- Source `hd44780_putchar(ch)`, `ch : int`, as built from this repository:
the call to the code-page conversion is guarded by `#ifdef hd44780_DO_CONVERT`,
a name that nothing defines.  The argument of `hd44780_write` is converted to
`uint8_t`; the first argument of `hd44780_gotoxy` is `position.x + 1` converted
to `uint8_t`. -/
def hd44780_putchar (ch : Int) (w : World) : World :=
  let w := hd44780_write true (ch % 256).toNat w
  hd44780_gotoxy ((w.params.position.x + 1) % 256) w.params.position.y w

/-- Source `hd44780_putchar_xy(x, y, ch)`. -/
def hd44780_putchar_xy (x y : Nat) (ch : Int) (w : World) : World :=
  let w := hd44780_gotoxy x y w
  hd44780_putchar ch w

/-- A fault of the C abstract machine. -/
inductive Fault where
  | out_of_bounds_read (index : Nat)
  deriving DecidableEq, Repr

/-- The C library's `vsnprintf(buf, size, fmt, args)`, given the text that
`fmt` and `args` render to (a list of bytes): at most `size - 1` bytes of the
text are stored, followed by a NUL; the rest of `buf` keeps its old contents;
the value returned is the length of the whole text. -/
def vsnprintf (buf : Nat → Nat) (size : Nat) (rendered : List Nat) : (Nat → Nat) × Int :=
  if size = 0 then (buf, (rendered.length : Int))
  else
    let n := min rendered.length (size - 1)
    (fun i => if i < n then rendered.getD i 0 else if i = n then 0 else buf i,
      (rendered.length : Int))

/-- Read of `buf[i]` for the local `char buf[HD44780_MAX_BUFFER_SIZE]`. -/
def buf_read (buf : Nat → Nat) (i : Nat) : Except Fault Nat :=
  if i < HD44780_MAX_BUFFER_SIZE then Except.ok (buf i)
  else Except.error (Fault.out_of_bounds_read i)

/-- The `for` loop of `hd44780_vsprintf`, with `n` iterations left and loop
index `i`: reads `buf[i]`, calls `hd44780_nl` for a newline and
`hd44780_putchar` otherwise. -/
def hd44780_vsprintf_loop (buf : Nat → Nat) : Nat → Nat → World → Except Fault World
  | 0, _, w => Except.ok w
  | n + 1, i, w =>
    match buf_read buf i with
    | Except.error f => Except.error f
    | Except.ok c =>
      if c = 10 then hd44780_vsprintf_loop buf n (i + 1) (hd44780_nl w)
      else hd44780_vsprintf_loop buf n (i + 1) (hd44780_putchar (c : Int) w)

/-- Source `hd44780_vsprintf(fmt, arg_ptr)`, given the bytes `stack` found in
the uninitialised local `buf` and the text `rendered` that the format and its
arguments produce.  The loop `for (i = 0; len > 0 && i < len; i++)` runs `len`
times when `len > 0` and not at all otherwise.  Returns `len`. -/
def hd44780_vsprintf (stack : Nat → Nat) (rendered : List Nat) (w : World) :
    Except Fault (Int × World) :=
  let r := vsnprintf stack HD44780_MAX_BUFFER_SIZE rendered
  let buf := r.1
  let len := r.2
  match hd44780_vsprintf_loop buf len.toNat 0 w with
  | Except.error f => Except.error f
  | Except.ok w => Except.ok (len, w)

/-! ## Bus cycles as the specification words them -/

/-- Specification side: drive one line high (`gpio_set`) or low (`gpio_clear`). -/
def drive (pin : hd44780_gpio) (high : Bool) : Event :=
  if high then Event.gpio_set pin.port pin.gpio else Event.gpio_clear pin.port pin.gpio

/-- Specification side: one enable pulse: assert E, delay 1, deassert E, delay 1. -/
def enable_pulse (bus : hd44780_bus) : List Event :=
  [drive bus.e true, Event.sleep_ms 1, drive bus.e false, Event.sleep_ms 1]

/-- Specification side: one 4-bit bus cycle carrying nibble `n`: RNW low, RS
high iff `isData`, bit 3 of `n` on DB7 ... bit 0 on DB4, then one enable pulse. -/
def nibble_cycle (bus : hd44780_bus) (isData : Bool) (n : Nat) : List Event :=
  [drive bus.rnw false, drive bus.rs isData,
   drive bus.db7 (n.testBit 3), drive bus.db6 (n.testBit 2),
   drive bus.db5 (n.testBit 1), drive bus.db4 (n.testBit 0)] ++ enable_pulse bus

/-- Specification side: one 8-bit bus cycle carrying byte `b`: RNW low, RS high
iff `isData`, bit `i` of `b` on DB`i` for i = 7..0, then one enable pulse. -/
def byte_cycle (bus : hd44780_bus) (isData : Bool) (b : Nat) : List Event :=
  [drive bus.rnw false, drive bus.rs isData,
   drive bus.db7 (b.testBit 7), drive bus.db6 (b.testBit 6),
   drive bus.db5 (b.testBit 5), drive bus.db4 (b.testBit 4),
   drive bus.db3 (b.testBit 3), drive bus.db2 (b.testBit 2),
   drive bus.db1 (b.testBit 1), drive bus.db0 (b.testBit 0)] ++ enable_pulse bus

/-- Specification side: the bus traffic of `write(isData, b)`: one byte cycle in
8-bit mode, two nibble cycles (high nibble first) in 4-bit mode. -/
def bus_write (bus : hd44780_bus) (bus8 : Bool) (isData : Bool) (b : Nat) : List Event :=
  if bus8 then byte_cycle bus isData b
  else nibble_cycle bus isData (b >>> 4) ++ nibble_cycle bus isData (b &&& 0x0F)

/-! ## Concrete displays used as test inputs -/

/-- A bus descriptor with eleven distinct pins on two ports. -/
def demo_bus : hd44780_bus :=
  { rs := ⟨0, 1⟩, e := ⟨0, 2⟩, rnw := ⟨0, 4⟩,
    db7 := ⟨1, 128⟩, db6 := ⟨1, 64⟩, db5 := ⟨1, 32⟩, db4 := ⟨1, 16⟩,
    db3 := ⟨1, 8⟩, db2 := ⟨1, 4⟩, db1 := ⟨1, 2⟩, db0 := ⟨1, 1⟩ }

/-- A 16-column display on a 4-bit bus, cursor at `(x, y)`, nothing sent yet. -/
def demo4 (x y : Nat) : World :=
  { params := { width := 16, bus8 := false, bus := demo_bus, position := ⟨x, y⟩ }, trace := [] }

/-- A 16-column display on an 8-bit bus, cursor at `(x, y)`, nothing sent yet. -/
def demo8 (x y : Nat) : World :=
  { params := { width := 16, bus8 := true, bus := demo_bus, position := ⟨x, y⟩ }, trace := [] }

/-- Specification side: the bus traffic of a sequence of writes, each given as
(isData, byte). -/
def bus_writes (bus : hd44780_bus) (bus8 : Bool) : List (Bool × Nat) → List Event
  | [] => []
  | (isData, b) :: rest => bus_write bus bus8 isData b ++ bus_writes bus bus8 rest

/-- Specification side: what `formatted` does with one rendered character:
`newline()` for a line feed (code 10), `putChar` for any other code. -/
def formatted_step (w : World) (c : Nat) : World :=
  if c = 10 then hd44780_nl w else hd44780_putchar (c : Int) w

/-- The bytes of the C string literal `"Line1\nLine2"`. -/
def line1_nl_line2 : List Nat := [76, 105, 110, 101, 49, 10, 76, 105, 110, 101, 50]

/-- A 16-column display with cursor at `(x, y)`, any bus, any bus mode, any
earlier traffic. -/
def display16 (bus : hd44780_bus) (bus8 : Bool) (x y : Nat) (tr : List Event) : World :=
  { params := { width := 16, bus8 := bus8, bus := bus, position := ⟨x, y⟩ }, trace := tr }

/-! ## Initialization sequence -/

/-- The libopencm3 constants that `helper.c` and `hd44780_init` name.  Their
values come from the library's headers for the chosen chip, so they are
parameters here. -/
structure Target where
  GPIOA : Nat
  GPIOB : Nat
  GPIOC : Nat
  GPIOD : Nat
  GPIOE : Nat
  RCC_GPIOA : Nat
  RCC_GPIOB : Nat
  RCC_GPIOC : Nat
  RCC_GPIOD : Nat
  RCC_GPIOE : Nat
  GPIO_MODE_OUTPUT : Nat
  GPIO_PUPD_PULLUP : Nat
  deriving DecidableEq, Repr

/-- Source `port2RCC(port)` of `helper.c`: the clock id of a GPIO port.  The
`default` branch executes `BKPT` ("Halt - stop on break point and wait for
debugger") and yields no value: `none`. -/
def port2RCC (t : Target) (port : Nat) : Option Nat :=
  if port = t.GPIOA then some t.RCC_GPIOA
  else if port = t.GPIOB then some t.RCC_GPIOB
  else if port = t.GPIOC then some t.RCC_GPIOC
  else if port = t.GPIOD then some t.RCC_GPIOD
  else if port = t.GPIOE then some t.RCC_GPIOE
  else none

/-- How a call that may stop at the `BKPT` of `port2RCC` ends: it returns with
a state, or it is halted in the state reached so far. -/
inductive Run where
  | returned (w : World)
  | halted (w : World)
  deriving DecidableEq, Repr

/-- Sequencing: what follows a call runs only if the call returned. -/
def Run.bind (r : Run) (f : World → Run) : Run :=
  match r with
  | Run.returned w => f w
  | Run.halted w => Run.halted w

/-- The state in which the call ended. -/
def Run.world : Run → World
  | Run.returned w => w
  | Run.halted w => w

/-- Whether the call returned. -/
def Run.completed : Run → Bool
  | Run.returned _ => true
  | Run.halted _ => false

/-- External `rcc_periph_clock_enable(clken)`. -/
def rcc_periph_clock_enable (clken : Nat) (w : World) : World :=
  emit (Event.rcc_periph_clock_enable clken) w

/-- External `gpio_mode_setup(port, mode, pull_up_down, gpios)`. -/
def gpio_mode_setup (port mode pull_up_down gpios : Nat) (w : World) : World :=
  emit (Event.gpio_mode_setup port mode pull_up_down gpios) w

/-- The three statements that `hd44780_init` repeats for each bus line `p`:
`rcc_periph_clock_enable(port2RCC(p.port)); gpio_clear(p.port, p.gpio);
gpio_mode_setup(p.port, GPIO_MODE_OUTPUT, GPIO_PUPD_PULLUP, p.gpio);`. -/
def init_line (t : Target) (p : hd44780_gpio) (w : World) : Run :=
  match port2RCC t p.port with
  | none => Run.halted w
  | some clken =>
    let w := rcc_periph_clock_enable clken w
    let w := gpio_clear p.port p.gpio w
    let w := gpio_mode_setup p.port t.GPIO_MODE_OUTPUT t.GPIO_PUPD_PULLUP p.gpio w
    Run.returned w

/-- Source `hd44780_init_4bits()`.  Each nibble argument is an `int` converted
to `uint8_t`. -/
def hd44780_init_4bits (w : World) : World :=
  let w := hd44780_write_half_byte false (((FUNCTION_SET ||| FUNCTION_SET_DL) >>> 4) % 256) w
  let w := sleep_ms 15 w
  let w := hd44780_write_half_byte false (((FUNCTION_SET ||| FUNCTION_SET_DL) >>> 4) % 256) w
  let w := sleep_ms 15 w
  let w := hd44780_write_half_byte false (((FUNCTION_SET ||| FUNCTION_SET_DL) >>> 4) % 256) w
  let w := sleep_ms 15 w
  hd44780_write_half_byte false ((FUNCTION_SET >>> 4) % 256) w

/-- Source `hd44780_init(bus_props, width, bus8, num_lines, big_fonts)`.  As in
the source, `big_fonts` is not used: function set is called with `false`. -/
def hd44780_init (t : Target) (bus_props : hd44780_bus) (width : Nat) (bus8 : Bool)
    (num_lines : Nat) (big_fonts : Bool) (w : World) : Run :=
  let w := { w with params := { w.params with width := width } }
  let w := set_position_x 0 w
  let w := set_position_y 0 w
  let w := { w with params := { w.params with bus8 := bus8 } }
  let w := { w with params := { w.params with bus := bus_props } }
  (init_line t bus_props.rs w).bind fun w =>
  (init_line t bus_props.e w).bind fun w =>
  (init_line t bus_props.rnw w).bind fun w =>
  (init_line t bus_props.db7 w).bind fun w =>
  (init_line t bus_props.db6 w).bind fun w =>
  (init_line t bus_props.db5 w).bind fun w =>
  (init_line t bus_props.db4 w).bind fun w =>
  (if bus8 then
    (init_line t bus_props.db3 w).bind fun w =>
    (init_line t bus_props.db2 w).bind fun w =>
    (init_line t bus_props.db1 w).bind fun w =>
    init_line t bus_props.db0 w
  else Run.returned w).bind fun w =>
  let w := sleep_ms 40 w
  let w := if !bus8 then hd44780_init_4bits w else w
  let w := hd44780_fnc false num_lines false w
  let w := hd44780_dispay_ctrl true false false w
  let w := hd44780_mode true false w
  let w := hd44780_cursor_ctrl false false w
  let w := hd44780_clear w
  let w := hd44780_home w
  Run.returned w

/-! ## Formatted output entry points -/

/-- Source `hd44780_printf(fmt, ...)`: the value of `hd44780_vsprintf` is
dropped. -/
def hd44780_printf (stack : Nat → Nat) (rendered : List Nat) (w : World) : Except Fault World :=
  match hd44780_vsprintf stack rendered w with
  | Except.error f => Except.error f
  | Except.ok r => Except.ok r.2

/-- Source `hd44780_printf_xy(x, y, fmt, ...)`. -/
def hd44780_printf_xy (x y : Nat) (stack : Nat → Nat) (rendered : List Nat) (w : World) :
    Except Fault World :=
  let w := hd44780_gotoxy x y w
  match hd44780_vsprintf stack rendered w with
  | Except.error f => Except.error f
  | Except.ok r => Except.ok r.2

/-! ## Initialization as the specification words it -/

/-- Specification side: the 4-bit priming: nibble 0x3 three times, each followed
by a delay of 15, then nibble 0x2 with nothing after it. -/
def priming (bus : hd44780_bus) : List Event :=
  nibble_cycle bus false 0x3 ++ [Event.sleep_ms 15]
    ++ (nibble_cycle bus false 0x3 ++ [Event.sleep_ms 15]
    ++ (nibble_cycle bus false 0x3 ++ [Event.sleep_ms 15]
    ++ nibble_cycle bus false 0x2))

/-- Specification side: the lines that init configures: RS, E, RNW, DB7..DB4
always, DB3..DB0 only in 8-bit mode. -/
def init_lines (bus : hd44780_bus) (bus8 : Bool) : List hd44780_gpio :=
  [bus.rs, bus.e, bus.rnw, bus.db7, bus.db6, bus.db5, bus.db4]
    ++ (if bus8 then [bus.db3, bus.db2, bus.db1, bus.db0] else [])

/-- Specification side: configuring one line: enable its clock domain, drive it
low, configure it as output. -/
def line_setup (t : Target) (clken : Nat) (p : hd44780_gpio) : List Event :=
  [Event.rcc_periph_clock_enable clken, Event.gpio_clear p.port p.gpio,
   Event.gpio_mode_setup p.port t.GPIO_MODE_OUTPUT t.GPIO_PUPD_PULLUP p.gpio]

/-- Specification side: configuring a list of lines in order, stopping at the
first line whose port has no clock id: the calls made, and whether every line
was configured. -/
def lines_setup (t : Target) : List hd44780_gpio → List Event × Bool
  | [] => ([], true)
  | p :: rest =>
    match port2RCC t p.port with
    | none => ([], false)
    | some clken => (line_setup t clken p ++ (lines_setup t rest).1, (lines_setup t rest).2)

/-- Specification side: the six default-configuration commands of init, as
(isData, byte): function set, display control, entry mode, cursor control,
clear, home. -/
def init_commands (num_lines : Nat) : List (Bool × Nat) :=
  [(false, 0x20 ||| (if num_lines > 1 then 0x08 else 0)), (false, 0x0C), (false, 0x06),
   (false, 0x10), (false, 0x01), (false, 0x02)]

/-- Specification side: a call made while configuring a line (clock enable,
drive low, mode setup): in particular not `gpio_set` and not a delay. -/
def Event.is_setup : Event → Bool
  | Event.rcc_periph_clock_enable _ => true
  | Event.gpio_clear _ _ => true
  | Event.gpio_mode_setup _ _ _ _ => true
  | _ => false

/-- A target with ports A..E numbered 0..4 and clock ids 10..14. -/
def demo_target : Target :=
  { GPIOA := 0, GPIOB := 1, GPIOC := 2, GPIOD := 3, GPIOE := 4,
    RCC_GPIOA := 10, RCC_GPIOB := 11, RCC_GPIOC := 12, RCC_GPIOD := 13, RCC_GPIOE := 14,
    GPIO_MODE_OUTPUT := 1, GPIO_PUPD_PULLUP := 1 }

/-- The demo bus with RS moved to port 5, which `demo_target` does not know. -/
def demo_bus_port5 : hd44780_bus := { demo_bus with rs := ⟨5, 1⟩ }

/-- Specification side: configuring a list of lines in order, as a run that
stops at the first line whose port has no clock id. -/
def setup_run (t : Target) : List hd44780_gpio → World → Run
  | [], w => Run.returned w
  | p :: rest, w => (init_line t p w).bind (setup_run t rest)

/-! ## Sequences of driver calls -/

/-- One call into the driver after init: the public functions of `hd44780.h`
that `hd44780.c` defines, and the two internal positioning functions. -/
inductive Op where
  | gotoxy (x y : Nat)
  | nl
  | busy
  | clear
  | home
  | mode (inc shift : Bool)
  | dispay_ctrl (display_on show_cursor cursor_blink : Bool)
  | cursor_ctrl (display right : Bool)
  | fnc (bus8 : Bool) (num_lines : Nat) (big_fonts : Bool)
  | set_CGRAM_addr (addr : Nat)
  | set_DDRAM_addr (addr : Nat)
  | putchar (ch : Int)
  | putchar_xy (x y : Nat) (ch : Int)
  | printf (stack : Nat → Nat) (rendered : List Nat)
  | printf_xy (x y : Nat) (stack : Nat → Nat) (rendered : List Nat)

/-- The effect of one call; an error when the call does not complete. -/
def Op.apply : Op → World → Except Fault World
  | Op.gotoxy x y, w => Except.ok (hd44780_gotoxy x y w)
  | Op.nl, w => Except.ok (hd44780_nl w)
  | Op.busy, w => Except.ok (hd44780_busy w).2
  | Op.clear, w => Except.ok (hd44780_clear w)
  | Op.home, w => Except.ok (hd44780_home w)
  | Op.mode inc shift, w => Except.ok (hd44780_mode inc shift w)
  | Op.dispay_ctrl display_on show_cursor cursor_blink, w =>
    Except.ok (hd44780_dispay_ctrl display_on show_cursor cursor_blink w)
  | Op.cursor_ctrl display right, w => Except.ok (hd44780_cursor_ctrl display right w)
  | Op.fnc bus8 num_lines big_fonts, w => Except.ok (hd44780_fnc bus8 num_lines big_fonts w)
  | Op.set_CGRAM_addr addr, w => Except.ok (hd44780_set_CGRAM_addr addr w)
  | Op.set_DDRAM_addr addr, w => Except.ok (hd44780_set_DDRAM_addr addr w)
  | Op.putchar ch, w => Except.ok (hd44780_putchar ch w)
  | Op.putchar_xy x y ch, w => Except.ok (hd44780_putchar_xy x y ch w)
  | Op.printf stack rendered, w => hd44780_printf stack rendered w
  | Op.printf_xy x y stack rendered, w => hd44780_printf_xy x y stack rendered w

/-- A sequence of calls, one after the other, stopping at the first call that
does not complete. -/
def run_ops : List Op → World → Except Fault World
  | [], w => Except.ok w
  | op :: rest, w =>
    match op.apply w with
    | Except.error f => Except.error f
    | Except.ok w => run_ops rest w

/-! ## Code-page conversion -/

/-- The `switch` of `hd44780_convert_rus` as a table: each `case 'X': ch = N;`
as the pair (X, N), in source order. -/
def rus_table : List (Char × Int) :=
  [('а', 97), ('б', 178), ('в', 179), ('г', 180), ('д', 227), ('е', 101), ('ё', 181),
   ('ж', 182), ('з', 183), ('и', 184), ('й', 185), ('к', 186), ('л', 187), ('м', 188),
   ('н', 189), ('о', 111), ('п', 190), ('р', 112), ('с', 99), ('т', 191), ('у', 121),
   ('ф', 228), ('х', 120), ('ч', 192), ('ц', 229), ('ш', 193), ('щ', 230), ('ъ', 194),
   ('ы', 195), ('ь', 196), ('э', 197), ('ю', 198), ('я', 199), ('А', 65), ('Б', 160),
   ('В', 66), ('Г', 161), ('Д', 224), ('Е', 69), ('Ё', 162), ('Ж', 163), ('З', 164),
   ('И', 165), ('Й', 166), ('К', 75), ('Л', 167), ('М', 77), ('Н', 72), ('О', 79), ('П', 168),
   ('Р', 80), ('С', 67), ('Т', 84), ('У', 169), ('Ф', 170), ('Х', 88), ('Ч', 171), ('Ц', 225),
   ('Ш', 171), ('Щ', 226), ('Ъ', 172), ('Ы', 173), ('Ь', 98), ('Э', 174), ('Ю', 176),
   ('Я', 177)]

/-- Source `hd44780_convert_rus(ch)`.  The value that the compiler gives to a
character constant depends on the character sets of the build, so it is the
parameter `enc`; a `ch` that matches no `case` is returned as it is. -/
def hd44780_convert_rus (enc : Char → Int) (ch : Int) : Int :=
  match rus_table.find? (fun entry => enc entry.1 == ch) with
  | some entry => entry.2
  | none => ch

/-- The two macro names that guard the conversion: `hd44780_DO_CONVERT_RUS` is
the switch offered (commented out) in `hd44780.h` and guards the definition of
`hd44780_convert_rus`; `hd44780_DO_CONVERT` guards the call in
`hd44780_putchar`. -/
structure build_flags where
  hd44780_DO_CONVERT_RUS : Bool
  hd44780_DO_CONVERT : Bool
  deriving DecidableEq, Repr

/-- Source `hd44780_putchar(ch)` under given macro definitions: the conversion
is called exactly when `hd44780_DO_CONVERT` is defined; the rest of the body is
`hd44780_putchar` as above. -/
def hd44780_putchar_built (flags : build_flags) (enc : Char → Int) (ch : Int) (w : World) :
    World :=
  let ch := if flags.hd44780_DO_CONVERT then hd44780_convert_rus enc ch else ch
  hd44780_putchar ch w

/-- A character-constant encoding used as test input: Windows-1251, one byte
per Cyrillic letter (U+0410..U+044F at 0xC0..0xFF, U+0401 at 0xA8, U+0451 at
0xB8), other characters by code point. -/
def cp1251 (c : Char) : Int :=
  if 0x410 ≤ c.toNat ∧ c.toNat ≤ 0x44F then ((c.toNat - 0x350 : Nat) : Int)
  else if c.toNat = 0x401 then 0xA8
  else if c.toNat = 0x451 then 0xB8
  else (c.toNat : Int)

/-! ## User-defined characters -/

/-- Modelled from the spec: `hd44780_define_char(addr, pattern, size)` is
declared in `hd44780.h` but defined nowhere in the repository.  Spec section
4.4: select the CGRAM address via the command layer, then stream `size` pattern
bytes through the bus transport with isData = true.  `pattern i` stands for the
byte `pattern[i]`. -/
def hd44780_define_char (addr : Nat) (pattern : Nat → Nat) (size : Nat) (w : World) : World :=
  let w := hd44780_set_CGRAM_addr addr w
  (List.range size).foldl (fun w i => hd44780_write true (pattern i) w) w

/-- A 5x8 glyph (a bell) used as test input. -/
def demo_glyph (i : Nat) : Nat := [0x04, 0x0E, 0x0E, 0x0E, 0x1F, 0x00, 0x04, 0x00].getD i 0

/-! ## Key driver (`src/keys.c`) -/

/-- The record `struct keys_s` of `keys.h`.  The fields `key` and `name` exist
only when `KEYS_ENABLE_KEY_CODES`, resp. `KEYS_ENABLE_NAMES`, is defined. -/
structure keys_s where
  port : Nat
  gpio : Nat
  pup : Bool
  nc : Bool
  key : Nat
  name : String
  deriving DecidableEq, Repr

/-- Source `key_pressed(keys, id)`.  The external `gpio_get(port, gpios)` is the
parameter `gpio_get`: the masked port value, zero when the pin reads low.  An
`id` outside the array gives `none`. -/
def key_pressed (gpio_get : Nat → Nat → Nat) (keys : List keys_s) (id : Nat) : Option Bool :=
  match keys[id]? with
  | none => none
  | some k =>
    let val : Bool := decide (gpio_get k.port k.gpio = 0)
    some (xor val k.nc)

/-- Two keys used as test input: a normally-open key on pin (0,1) and a
normally-closed key on pin (0,2). -/
def demo_keys : List keys_s :=
  [{ port := 0, gpio := 1, pup := true, nc := false, key := 13, name := "ok" },
   { port := 0, gpio := 2, pup := false, nc := true, key := 27, name := "esc" }]

/-- The second demo key, normally closed, on pin (0,2). -/
def demo_key_esc : keys_s :=
  { port := 0, gpio := 2, pup := false, nc := true, key := 27, name := "esc" }

/-- Specification side: whether a call to an external primitive is made on one
of the given lines: `gpio_set`, `gpio_clear` and `gpio_mode_setup` on the pin
of one of the lines, a clock enable for the clock id of the port of one of the
lines; a delay touches no line. -/
def Event.on_lines (t : Target) (lines : List hd44780_gpio) : Event → Bool
  | Event.gpio_set port gpio => decide ((⟨port, gpio⟩ : hd44780_gpio) ∈ lines)
  | Event.gpio_clear port gpio => decide ((⟨port, gpio⟩ : hd44780_gpio) ∈ lines)
  | Event.sleep_ms _ => true
  | Event.rcc_periph_clock_enable clken =>
    lines.any (fun p => decide (port2RCC t p.port = some clken))
  | Event.gpio_mode_setup port _ _ gpio => decide ((⟨port, gpio⟩ : hd44780_gpio) ∈ lines)

/-- Specification side: the seven lines of the 4-bit bus: RS, E, RNW and
DB7..DB4. -/
def lines4 (bus : hd44780_bus) : List hd44780_gpio :=
  [bus.rs, bus.e, bus.rnw, bus.db7, bus.db6, bus.db5, bus.db4]

/-! # Theorems -/

/-! ## Bit tests -/

theorem and_two_pow_ne_zero_iff (n i : Nat) : n &&& 2 ^ i ≠ 0 ↔ n.testBit i = true := by
  constructor
  · intro h
    obtain ⟨j, hj⟩ := Nat.ne_zero_implies_bit_true h
    rw [Nat.testBit_and, Nat.testBit_two_pow] at hj
    simp only [Bool.and_eq_true, decide_eq_true_eq] at hj
    obtain ⟨h1, h2⟩ := hj
    rw [h2]; exact h1
  · intro h hz
    have h2 : (n &&& 2 ^ i).testBit i = true := by
      rw [Nat.testBit_and, Nat.testBit_two_pow, h]; simp
    rw [hz] at h2
    simp at h2

theorem ite_mask_eq_drive (n i m : Nat) (hm : m = 2 ^ i) (pin : hd44780_gpio) (w : World) :
    (if n &&& m ≠ 0 then gpio_set pin.port pin.gpio w else gpio_clear pin.port pin.gpio w)
      = emit (drive pin (n.testBit i)) w := by
  subst hm
  by_cases h : n.testBit i = true
  · rw [if_pos ((and_two_pow_ne_zero_iff n i).2 h), h]; rfl
  · rw [if_neg (fun hc => h ((and_two_pow_ne_zero_iff n i).1 hc))]
    simp only [Bool.not_eq_true] at h
    rw [h]; rfl

theorem ite_rs_eq_drive (rs : Bool) (pin : hd44780_gpio) (w : World) :
    (if rs = true then gpio_set pin.port pin.gpio w else gpio_clear pin.port pin.gpio w)
      = emit (drive pin rs) w := by
  cases rs <;> rfl

@[simp] theorem emit_params (ev : Event) (w : World) : (emit ev w).params = w.params := rfl

@[simp] theorem emit_trace (ev : Event) (w : World) : (emit ev w).trace = w.trace ++ [ev] := rfl

theorem write_half_byte_eq (rs : Bool) (data : Nat) (w : World) :
    hd44780_write_half_byte rs data w
      = { w with trace := w.trace ++ nibble_cycle w.params.bus rs data } := by
  unfold hd44780_write_half_byte
  simp only [ite_rs_eq_drive, ite_mask_eq_drive data 3 0x08 (by norm_num),
    ite_mask_eq_drive data 2 0x04 (by norm_num), ite_mask_eq_drive data 1 0x02 (by norm_num),
    ite_mask_eq_drive data 0 0x01 (by norm_num), emit_params]
  simp [gpio_set, gpio_clear, sleep_ms, emit, nibble_cycle, enable_pulse, drive]

theorem write_byte_eq (rs : Bool) (data : Nat) (w : World) :
    hd44780_write_byte rs data w
      = { w with trace := w.trace ++ byte_cycle w.params.bus rs data } := by
  unfold hd44780_write_byte
  simp only [ite_rs_eq_drive, ite_mask_eq_drive data 7 0x80 (by norm_num),
    ite_mask_eq_drive data 6 0x40 (by norm_num), ite_mask_eq_drive data 5 0x20 (by norm_num),
    ite_mask_eq_drive data 4 0x10 (by norm_num), ite_mask_eq_drive data 3 0x08 (by norm_num),
    ite_mask_eq_drive data 2 0x04 (by norm_num), ite_mask_eq_drive data 1 0x02 (by norm_num),
    ite_mask_eq_drive data 0 0x01 (by norm_num), emit_params]
  simp [gpio_set, gpio_clear, sleep_ms, emit, byte_cycle, enable_pulse, drive]

theorem nibble_cycle_low (bus : hd44780_bus) (rs : Bool) (b : Nat) :
    nibble_cycle bus rs (b &&& 0x0F) = nibble_cycle bus rs b := by
  have h : b &&& 0x0F = b % 16 := by
    have h2 := Nat.and_pow_two_sub_one_eq_mod b 4
    norm_num at h2
    exact h2
  have hbit : ∀ i, i < 4 → (b % 16).testBit i = b.testBit i := by
    intro i hi
    have h2 := Nat.testBit_mod_two_pow b 4 i
    norm_num at h2
    rw [h2]
    simp [hi]
  rw [h]
  simp only [nibble_cycle, hbit 3 (by decide), hbit 2 (by decide), hbit 1 (by decide),
    hbit 0 (by decide)]

theorem write_eq (rs : Bool) (data : Nat) (hd : data < 256) (w : World) :
    hd44780_write rs data w
      = { w with trace := w.trace ++ bus_write w.params.bus w.params.bus8 rs data } := by
  unfold hd44780_write bus_write
  by_cases h8 : w.params.bus8 = true
  · rw [if_pos h8, if_pos h8, write_byte_eq]
  · have hs : (data >>> 4) % 256 = data >>> 4 := by
      rw [Nat.shiftRight_eq_div_pow]; omega
    rw [if_neg h8, if_neg h8]
    simp only [write_half_byte_eq, hs, nibble_cycle_low, List.append_assoc]

/-! ## Bus transport (C5, C6) -/

/-- C5: in 4-bit mode `hd44780_write(isData, b)` leaves the driver record alone
and emits exactly two nibble cycles, the one carrying `b >> 4` first and the one
carrying `b & 0x0F` second, each being: RNW low, RS high iff `isData`, bit 3 of
the nibble on DB7 down to bit 0 on DB4, E asserted, delay 1, E deasserted, delay
1.  No `gpio_set` on the RNW pin occurs (RNW wired to a pin of its own). -/
theorem write_4bit_two_nibble_cycles (w : World) (isData : Bool) (b : Nat)
    (hmode : w.params.bus8 = false) (hb : b < 256) :
    (hd44780_write isData b w).params = w.params
    ∧ (hd44780_write isData b w).trace
        = w.trace ++ (nibble_cycle w.params.bus isData (b >>> 4)
            ++ nibble_cycle w.params.bus isData (b &&& 0x0F))
    ∧ (∀ n, nibble_cycle w.params.bus isData n
        = [Event.gpio_clear w.params.bus.rnw.port w.params.bus.rnw.gpio,
           drive w.params.bus.rs isData,
           drive w.params.bus.db7 (n.testBit 3), drive w.params.bus.db6 (n.testBit 2),
           drive w.params.bus.db5 (n.testBit 1), drive w.params.bus.db4 (n.testBit 0),
           Event.gpio_set w.params.bus.e.port w.params.bus.e.gpio, Event.sleep_ms 1,
           Event.gpio_clear w.params.bus.e.port w.params.bus.e.gpio, Event.sleep_ms 1])
    ∧ (w.params.bus.rnw ∉ [w.params.bus.rs, w.params.bus.e, w.params.bus.db7,
          w.params.bus.db6, w.params.bus.db5, w.params.bus.db4] →
        ∀ t, (hd44780_write isData b w).trace = w.trace ++ t →
          Event.gpio_set w.params.bus.rnw.port w.params.bus.rnw.gpio ∉ t) := by
  have hw := write_eq isData b hb w
  simp only [bus_write, hmode, Bool.false_eq_true, if_false] at hw
  refine ⟨by rw [hw], by rw [hw], fun n => rfl, ?_⟩
  intro hpin t ht
  rw [hw] at ht
  have ht2 := List.append_cancel_left ht
  rw [← ht2]
  simp only [List.mem_cons, List.mem_singleton, not_or, List.not_mem_nil, not_false_eq_true,
    and_true] at hpin
  obtain ⟨h1, h2, h3, h4, h5, h6⟩ := hpin
  have key : ∀ (p : hd44780_gpio) (v : Bool), w.params.bus.rnw ≠ p →
      Event.gpio_set w.params.bus.rnw.port w.params.bus.rnw.gpio ≠ drive p v := by
    intro p v hp heq
    apply hp
    cases v
    · simp [drive] at heq
    · simp only [drive, if_true, Event.gpio_set.injEq] at heq
      cases hr : w.params.bus.rnw
      cases p
      rw [hr] at heq
      simp only [hd44780_gpio.mk.injEq]
      exact heq
  have key2 : Event.gpio_set w.params.bus.rnw.port w.params.bus.rnw.gpio
      ≠ drive w.params.bus.rnw false := by
    intro heq
    simp [drive] at heq
  have key3 : ∀ n, Event.gpio_set w.params.bus.rnw.port w.params.bus.rnw.gpio
      ∉ nibble_cycle w.params.bus isData n := by
    intro n hmem
    simp only [nibble_cycle, enable_pulse, List.cons_append, List.nil_append, List.mem_cons,
      List.mem_singleton, List.not_mem_nil, or_false] at hmem
    rcases hmem with h | h | h | h | h | h | h | h | h | h
    · exact key2 h
    · exact key _ _ h1 h
    · exact key _ _ h3 h
    · exact key _ _ h4 h
    · exact key _ _ h5 h
    · exact key _ _ h6 h
    · exact key _ _ h2 h
    · exact Event.noConfusion h
    · exact key _ _ h2 h
    · exact Event.noConfusion h
  simp only [List.mem_append, not_or]
  exact ⟨key3 _, key3 _⟩

/-- Witness for C5: writing the data byte 0xA5 on the 4-bit demo display drives
nibble 0xA and then nibble 0x5. -/
theorem write_4bit_two_nibble_cycles_witness :
    (demo4 0 0).params.bus8 = false ∧ 0xA5 < 256
    ∧ (hd44780_write true 0xA5 (demo4 0 0)).trace
        = nibble_cycle demo_bus true 0xA ++ nibble_cycle demo_bus true 0x5 :=
  ⟨rfl, by decide,
    (write_4bit_two_nibble_cycles (demo4 0 0) true 0xA5 rfl (by decide)).2.1⟩

/-- C6: in 8-bit mode `hd44780_write(isData, b)` leaves the driver record alone
and emits exactly one byte cycle: RNW low, RS high iff `isData`, every data
line DBi set when bit i of `b` is 1 and cleared when it is 0, then one enable
pulse (E asserted, delay 1, E deasserted, delay 1). -/
theorem write_8bit_one_byte_cycle (w : World) (isData : Bool) (b : Nat)
    (hmode : w.params.bus8 = true) :
    (hd44780_write isData b w).params = w.params
    ∧ (hd44780_write isData b w).trace
        = w.trace ++
          [Event.gpio_clear w.params.bus.rnw.port w.params.bus.rnw.gpio,
           drive w.params.bus.rs isData,
           drive w.params.bus.db7 (b.testBit 7), drive w.params.bus.db6 (b.testBit 6),
           drive w.params.bus.db5 (b.testBit 5), drive w.params.bus.db4 (b.testBit 4),
           drive w.params.bus.db3 (b.testBit 3), drive w.params.bus.db2 (b.testBit 2),
           drive w.params.bus.db1 (b.testBit 1), drive w.params.bus.db0 (b.testBit 0),
           Event.gpio_set w.params.bus.e.port w.params.bus.e.gpio, Event.sleep_ms 1,
           Event.gpio_clear w.params.bus.e.port w.params.bus.e.gpio, Event.sleep_ms 1]
    ∧ (hd44780_write isData b w).trace = w.trace ++ byte_cycle w.params.bus isData b := by
  have hw : hd44780_write isData b w = hd44780_write_byte isData b w := by
    unfold hd44780_write
    rw [if_pos hmode]
  rw [hw, write_byte_eq]
  exact ⟨rfl, rfl, rfl⟩

/-- Witness for C6: the command byte 0x01 on the 8-bit demo display. -/
theorem write_8bit_one_byte_cycle_witness :
    (demo8 0 0).params.bus8 = true
    ∧ (hd44780_write false 0x01 (demo8 0 0)).trace
        = [Event.gpio_clear 0 4, Event.gpio_clear 0 1,
           Event.gpio_clear 1 128, Event.gpio_clear 1 64, Event.gpio_clear 1 32,
           Event.gpio_clear 1 16, Event.gpio_clear 1 8, Event.gpio_clear 1 4,
           Event.gpio_clear 1 2, Event.gpio_set 1 1,
           Event.gpio_set 0 2, Event.sleep_ms 1, Event.gpio_clear 0 2, Event.sleep_ms 1] :=
  ⟨rfl, (write_8bit_one_byte_cycle (demo8 0 0) false 0x01 rfl).2.1⟩

/-! ## Cursor / addressing engine (C1 - C4) -/

theorem and_7F_eq_mod (addr : Nat) : addr &&& 0x7F = addr % 128 := by
  have h := Nat.and_pow_two_sub_one_eq_mod addr 7
  norm_num at h
  exact h

theorem set_DDRAM_addr_eq (addr : Nat) (w : World) :
    hd44780_set_DDRAM_addr addr w
      = { w with trace := w.trace
            ++ bus_write w.params.bus w.params.bus8 false (0x80 + addr % 128) } := by
  unfold hd44780_set_DDRAM_addr
  have h : (SET_DD_RAM_ADDR + (addr &&& DD_RAM_ADDR_MASK)) % 256 = 0x80 + addr % 128 := by
    unfold SET_DD_RAM_ADDR DD_RAM_ADDR_MASK
    rw [and_7F_eq_mod]
    omega
  simp only [h]
  rw [write_eq _ _ (by omega)]

theorem gotoxy_row0 (x : Nat) (w : World) (hx : x < w.params.width) :
    hd44780_gotoxy x 0 w
      = { params := { w.params with position := ⟨x, w.params.position.y⟩ },
          trace := w.trace ++ bus_write w.params.bus w.params.bus8 false (0x80 + x % 128) } := by
  unfold hd44780_gotoxy
  simp only [ge_iff_le, not_le.mpr hx, if_false, set_DDRAM_addr_eq, set_position_x]
  congr 3
  omega

theorem gotoxy_row1 (x : Nat) (w : World) (hx : x < w.params.width) :
    hd44780_gotoxy x 1 w
      = { params := { w.params with position := ⟨x, 1⟩ },
          trace := w.trace
            ++ bus_write w.params.bus w.params.bus8 false (0x80 + (x + 0x40) % 128) } := by
  unfold hd44780_gotoxy
  simp only [ge_iff_le, not_le.mpr hx, if_false, set_DDRAM_addr_eq, set_position_x,
    set_position_y]
  congr 3
  omega

theorem gotoxy_row_ge2 (x y : Nat) (w : World) (hx : x < w.params.width) (hy : 2 ≤ y) :
    hd44780_gotoxy x y w
      = { params := { w.params with position := ⟨0, 0⟩ },
          trace := w.trace ++ bus_write w.params.bus w.params.bus8 false 0x80 } := by
  obtain ⟨k, rfl⟩ : ∃ k, y = k + 2 := ⟨y - 2, by omega⟩
  unfold hd44780_gotoxy
  simp only [ge_iff_le, not_le.mpr hx, if_false, set_DDRAM_addr_eq, set_position_x,
    set_position_y]

theorem gotoxy_wrap (x y : Nat) (w : World) (hx : w.params.width ≤ x) :
    hd44780_gotoxy x y w
      = (match (y + 1) % 256 with
        | 0 => { params := { w.params with position := ⟨0, w.params.position.y⟩ },
                 trace := w.trace ++ bus_write w.params.bus w.params.bus8 false 0x80 }
        | 1 => { params := { w.params with position := ⟨0, 1⟩ },
                 trace := w.trace ++ bus_write w.params.bus w.params.bus8 false 0xC0 }
        | _ => { params := { w.params with position := ⟨0, 0⟩ },
                 trace := w.trace ++ bus_write w.params.bus w.params.bus8 false 0x80 }) := by
  unfold hd44780_gotoxy
  simp only [ge_iff_le, hx, if_true]
  split <;> simp_all [set_DDRAM_addr_eq, set_position_x, set_position_y]

theorem gotoxy_in_range (x y : Nat) (w : World) (hx : x < w.params.width) (hy : y = 0 ∨ y = 1) :
    (hd44780_gotoxy x y w).trace
        = w.trace ++ bus_write w.params.bus w.params.bus8 false
            (0x80 + (x + (if y = 1 then 0x40 else 0)) % 128)
    ∧ (hd44780_gotoxy x y w).params
        = { w.params with position := ⟨x, if y = 1 then 1 else w.params.position.y⟩ } := by
  rcases hy with rfl | rfl
  · rw [gotoxy_row0 x w hx]
    simp
  · rw [gotoxy_row1 x w hx]
    simp

theorem gotoxy_row_2_to_254 (x y : Nat) (w : World) (hy : 2 ≤ y) (hy2 : y < 255) :
    hd44780_gotoxy x y w
      = { params := { w.params with position := ⟨0, 0⟩ },
          trace := w.trace ++ bus_write w.params.bus w.params.bus8 false 0x80 } := by
  by_cases hx : x < w.params.width
  · exact gotoxy_row_ge2 x y w hx hy
  · rw [gotoxy_wrap x y w (not_lt.mp hx)]
    obtain ⟨k, hk⟩ : ∃ k, (y + 1) % 256 = k + 2 := ⟨(y + 1) % 256 - 2, by omega⟩
    rw [hk]
    rfl

/-- C1 at a failing input.  On the 16-column demo display the cursor is first
moved to (0,1); then `hd44780_gotoxy(3, 0)` (column 3 < width, row 0) sends the
set-DDRAM-address command for address 3, as claimed, but the `case 0` branch
assigns nothing to `position.y`, so the driver's cursor ends at (3,1) and not at
(3,0). -/
theorem gotoxy_row0_keeps_stale_row :
    (hd44780_gotoxy 0 1 (demo4 0 0)).params.position = ⟨0, 1⟩
    ∧ (hd44780_gotoxy 3 0 (hd44780_gotoxy 0 1 (demo4 0 0))).trace
        = (hd44780_gotoxy 0 1 (demo4 0 0)).trace ++ bus_write demo_bus false false (0x80 + 3)
    ∧ (hd44780_gotoxy 3 0 (hd44780_gotoxy 0 1 (demo4 0 0))).params.position = ⟨3, 1⟩
    ∧ (hd44780_gotoxy 3 0 (hd44780_gotoxy 0 1 (demo4 0 0))).params.position ≠ ⟨3, 0⟩ := by
  decide

/-- C2 at a failing input.  On the 16-column demo display with the cursor on
row 1, `hd44780_gotoxy(16, 255)`: the column is not below the width, so `y++`
takes the 8-bit row 255 to 0, the `case 0` branch is taken, the address sent is
0x00 as claimed, but `position.y` keeps its old value 1: the cursor ends at
(0,1) and not at (0,0). -/
theorem gotoxy_row255_wrap_keeps_stale_row :
    (hd44780_gotoxy 0 1 (demo4 0 0)).params.position = ⟨0, 1⟩
    ∧ (hd44780_gotoxy 16 255 (hd44780_gotoxy 0 1 (demo4 0 0))).trace
        = (hd44780_gotoxy 0 1 (demo4 0 0)).trace ++ bus_write demo_bus false false 0x80
    ∧ (hd44780_gotoxy 16 255 (hd44780_gotoxy 0 1 (demo4 0 0))).params.position = ⟨0, 1⟩
    ∧ (hd44780_gotoxy 16 255 (hd44780_gotoxy 0 1 (demo4 0 0))).params.position ≠ ⟨0, 0⟩ := by
  decide

/-- C3: end-of-line wrap.  With width at least 1 and a column not below the
width, `hd44780_gotoxy(column, 0)` and `hd44780_gotoxy(0, 1)` give the same
record and the same trace: one set-DDRAM-address command for address 0x40
(command byte 0xC0), cursor (0,1), width, bus mode and bus untouched. -/
theorem gotoxy_eol_wrap_eq_row1 (w : World) (column : Nat)
    (hw : 1 ≤ w.params.width) (hc : w.params.width ≤ column) :
    hd44780_gotoxy column 0 w = hd44780_gotoxy 0 1 w
    ∧ (hd44780_gotoxy column 0 w).trace = (hd44780_set_DDRAM_addr 0x40 w).trace
    ∧ (hd44780_gotoxy column 0 w).trace
        = w.trace ++ bus_write w.params.bus w.params.bus8 false 0xC0
    ∧ (hd44780_gotoxy column 0 w).params = { w.params with position := ⟨0, 1⟩ } := by
  have h1 : hd44780_gotoxy column 0 w
      = { params := { w.params with position := ⟨0, 1⟩ },
          trace := w.trace ++ bus_write w.params.bus w.params.bus8 false 0xC0 } := by
    rw [gotoxy_wrap column 0 w hc]
  have h2 : hd44780_gotoxy 0 1 w
      = { params := { w.params with position := ⟨0, 1⟩ },
          trace := w.trace ++ bus_write w.params.bus w.params.bus8 false 0xC0 } := by
    rw [gotoxy_row1 0 w (by omega)]
  refine ⟨by rw [h1, h2], ?_, by rw [h1], by rw [h1]⟩
  rw [h1, set_DDRAM_addr_eq]

/-- Witness for C3: width 16, `hd44780_gotoxy(16, 0)` against
`hd44780_gotoxy(0, 1)`. -/
theorem gotoxy_eol_wrap_eq_row1_witness :
    1 ≤ (demo4 7 0).params.width ∧ (demo4 7 0).params.width ≤ 16
    ∧ hd44780_gotoxy 16 0 (demo4 7 0) = hd44780_gotoxy 0 1 (demo4 7 0)
    ∧ (hd44780_gotoxy 16 0 (demo4 7 0)).params.position = ⟨0, 1⟩ :=
  ⟨by decide, by decide, (gotoxy_eol_wrap_eq_row1 (demo4 7 0) 16 (by decide) (by decide)).1,
    by rw [(gotoxy_eol_wrap_eq_row1 (demo4 7 0) 16 (by decide) (by decide)).2.2.2]⟩

/-- C4 at a failing input.  On the 16-column demo display with the cursor on
row 1, `hd44780_putchar_xy(3, 0, 'A')` leaves the cursor at (4,1): the column is
(3+1) mod 16 as claimed, but the row is 1 where the claim has row 0, because
`hd44780_gotoxy(3, 0)` did not reset `position.y`. -/
theorem putchar_xy_row0_keeps_stale_row :
    (hd44780_gotoxy 0 1 (demo4 0 0)).params.position = ⟨0, 1⟩
    ∧ (hd44780_putchar_xy 3 0 65 (hd44780_gotoxy 0 1 (demo4 0 0))).params.position = ⟨4, 1⟩
    ∧ (hd44780_putchar_xy 3 0 65 (hd44780_gotoxy 0 1 (demo4 0 0))).params.position
        ≠ ⟨(3 + 1) % 16, 0⟩ := by
  decide

/-! ## Text layer (C7, C8) -/

theorem putchar_eq (ch : Int) (w : World) :
    hd44780_putchar ch w
      = hd44780_gotoxy ((w.params.position.x + 1) % 256) w.params.position.y
          { w with trace := w.trace
              ++ bus_write w.params.bus w.params.bus8 true (ch % 256).toNat } := by
  unfold hd44780_putchar
  have hb : (ch % 256).toNat < 256 := by omega
  simp only [write_eq _ _ hb]

theorem nl_eq (w : World) :
    hd44780_nl w = hd44780_gotoxy 0 ((w.params.position.y + 1) % 256) w := rfl

theorem putchar_display16_row0 (bus : hd44780_bus) (bus8 : Bool) (tr : List Event)
    (ch : Int) (x : Nat) (h0 : 0 ≤ ch) (hc : ch < 256) (hx : x + 1 < 16) :
    hd44780_putchar ch (display16 bus bus8 x 0 tr)
      = display16 bus bus8 (x + 1) 0
          (tr ++ (bus_write bus bus8 true ch.toNat
            ++ bus_write bus bus8 false (0x80 + (x + 1)))) := by
  have h1 : (ch % 256).toNat = ch.toNat := by omega
  have h2 : (x + 1) % 256 = x + 1 := by omega
  have h3 : (x + 1) % 128 = x + 1 := by omega
  rw [putchar_eq, h1]
  simp only [display16, h2]
  rw [gotoxy_row0 _ _ (by simpa using hx)]
  simp only [h3, List.append_assoc]

theorem putchar_display16_row1 (bus : hd44780_bus) (bus8 : Bool) (tr : List Event)
    (ch : Int) (x : Nat) (h0 : 0 ≤ ch) (hc : ch < 256) (hx : x + 1 < 16) :
    hd44780_putchar ch (display16 bus bus8 x 1 tr)
      = display16 bus bus8 (x + 1) 1
          (tr ++ (bus_write bus bus8 true ch.toNat
            ++ bus_write bus bus8 false (0xC0 + (x + 1)))) := by
  have h1 : (ch % 256).toNat = ch.toNat := by omega
  have h2 : (x + 1) % 256 = x + 1 := by omega
  have h3 : 0x80 + (x + 1 + 0x40) % 128 = 0xC0 + (x + 1) := by omega
  rw [putchar_eq, h1]
  simp only [display16, h2]
  rw [gotoxy_row1 _ _ (by simpa using hx)]
  simp only [h3, List.append_assoc]

theorem nl_display16_row0 (bus : hd44780_bus) (bus8 : Bool) (tr : List Event) (x : Nat) :
    hd44780_nl (display16 bus bus8 x 0 tr)
      = display16 bus bus8 0 1 (tr ++ bus_write bus bus8 false 0xC0) := by
  rw [nl_eq]
  simp only [display16]
  rw [gotoxy_row1 _ _ (by simp)]

theorem gotoxy_one_command (x y : Nat) (w : World) :
    ∃ a, a < 128 ∧ ∃ p, hd44780_gotoxy x y w
      = { params := { w.params with position := p },
          trace := w.trace ++ bus_write w.params.bus w.params.bus8 false (0x80 + a) } := by
  by_cases hx : x < w.params.width
  · rcases y with _ | _ | k
    · exact ⟨x % 128, by omega, _, gotoxy_row0 x w hx⟩
    · exact ⟨(x + 0x40) % 128, by omega, _, gotoxy_row1 x w hx⟩
    · exact ⟨0, by omega, _, gotoxy_row_ge2 x (k + 1 + 1) w hx (by omega)⟩
  · rw [gotoxy_wrap x y w (not_lt.mp hx)]
    split
    · exact ⟨0, by omega, _, rfl⟩
    · exact ⟨0x40, by omega, _, rfl⟩
    · exact ⟨0, by omega, _, rfl⟩

theorem putchar_one_data_one_command (ch : Int) (w : World) :
    ∃ a, a < 128 ∧ ∃ p, hd44780_putchar ch w
      = { params := { w.params with position := p },
          trace := w.trace ++ (bus_write w.params.bus w.params.bus8 true (ch % 256).toNat
            ++ bus_write w.params.bus w.params.bus8 false (0x80 + a)) } := by
  rw [putchar_eq]
  obtain ⟨a, ha, p, hp⟩ := gotoxy_one_command ((w.params.position.x + 1) % 256)
    w.params.position.y
    { w with trace := w.trace ++ bus_write w.params.bus w.params.bus8 true (ch % 256).toNat }
  refine ⟨a, ha, p, ?_⟩
  rw [hp]
  simp only [List.append_assoc]

theorem vsprintf_loop_fits (buf : Nat → Nat) (l : List Nat) :
    ∀ (i : Nat) (w : World), i + l.length ≤ HD44780_MAX_BUFFER_SIZE →
      (∀ k, k < l.length → buf (i + k) = l.getD k 0) →
      hd44780_vsprintf_loop buf l.length i w = Except.ok (l.foldl formatted_step w) := by
  induction l with
  | nil => intro i w _ _; rfl
  | cons c l ih =>
    intro i w hlen hbuf
    have hi : i < HD44780_MAX_BUFFER_SIZE := by
      simp only [List.length_cons] at hlen
      omega
    have hc : buf i = c := by
      have h0 := hbuf 0 (by simp)
      simpa using h0
    have hrest : ∀ k, k < l.length → buf (i + 1 + k) = l.getD k 0 := by
      intro k hk
      have h1 := hbuf (k + 1) (by simp only [List.length_cons]; omega)
      rw [List.getD_cons_succ] at h1
      rw [← h1]
      congr 1
      omega
    have hlen2 : i + 1 + l.length ≤ HD44780_MAX_BUFFER_SIZE := by
      simp only [List.length_cons] at hlen
      omega
    simp only [List.length_cons, hd44780_vsprintf_loop, buf_read, if_pos hi, hc, List.foldl_cons]
    by_cases h10 : c = 10
    · rw [if_pos h10, ih (i + 1) _ hlen2 hrest]
      simp only [formatted_step, if_pos h10]
    · rw [if_neg h10, ih (i + 1) _ hlen2 hrest]
      simp only [formatted_step, if_neg h10]

theorem vsprintf_loop_overrun (buf : Nat → Nat) :
    ∀ (n i : Nat) (w : World), i ≤ HD44780_MAX_BUFFER_SIZE → HD44780_MAX_BUFFER_SIZE < i + n →
      hd44780_vsprintf_loop buf n i w
        = Except.error (Fault.out_of_bounds_read HD44780_MAX_BUFFER_SIZE) := by
  intro n
  induction n with
  | zero => intro i w h1 h2; omega
  | succ n ih =>
    intro i w h1 h2
    by_cases hi : i < HD44780_MAX_BUFFER_SIZE
    · simp only [hd44780_vsprintf_loop, buf_read, if_pos hi]
      split <;> exact ih (i + 1) _ (by omega) (by omega)
    · have hi2 : i = HD44780_MAX_BUFFER_SIZE := by omega
      subst hi2
      simp only [hd44780_vsprintf_loop, buf_read, if_neg hi]

theorem vsprintf_fits_eq (stack : Nat → Nat) (rendered : List Nat) (w : World)
    (hfit : rendered.length < HD44780_MAX_BUFFER_SIZE) :
    hd44780_vsprintf stack rendered w
      = Except.ok ((rendered.length : Int), rendered.foldl formatted_step w) := by
  have hsz : HD44780_MAX_BUFFER_SIZE = 80 := rfl
  rw [hsz] at hfit
  have hmin : min rendered.length (80 - 1) = rendered.length := by omega
  have hloop := vsprintf_loop_fits (vsnprintf stack HD44780_MAX_BUFFER_SIZE rendered).1 rendered
    0 w (by rw [hsz]; omega) (by
      intro k hk
      simp only [vsnprintf, hsz, hmin, zero_add]
      rw [if_neg (by decide)]
      simp only [if_pos hk])
  unfold hd44780_vsprintf
  have hlen : (vsnprintf stack HD44780_MAX_BUFFER_SIZE rendered).2 = (rendered.length : Int) := by
    unfold vsnprintf
    split <;> rfl
  simp only [hlen, Int.toNat_ofNat, hloop]

theorem vsprintf_overrun (stack : Nat → Nat) (rendered : List Nat) (w : World)
    (hlong : HD44780_MAX_BUFFER_SIZE < rendered.length) :
    hd44780_vsprintf stack rendered w
      = Except.error (Fault.out_of_bounds_read HD44780_MAX_BUFFER_SIZE) := by
  unfold hd44780_vsprintf
  have hlen : (vsnprintf stack HD44780_MAX_BUFFER_SIZE rendered).2 = (rendered.length : Int) := by
    unfold vsnprintf
    split <;> rfl
  simp only [hlen, Int.toNat_ofNat]
  rw [vsprintf_loop_overrun _ rendered.length 0 w (by decide) (by omega)]

/-- C7 at a failing input.  For a text of 81 characters `vsnprintf` stores 79
of them and a NUL but returns 81, and the loop of `hd44780_vsprintf` runs up to
that returned length: it reads `buf[80]`, one past the 80-byte buffer.  For a
text of exactly 80 characters no read is out of bounds, but the 80th character
handed to `hd44780_putchar` is the terminating NUL (code 0), which is not a
character of the text. -/
theorem vsprintf_81_chars_reads_buf_80 (stack : Nat → Nat) (w : World) :
    (vsnprintf stack HD44780_MAX_BUFFER_SIZE (List.replicate 81 65)).2 = 81
    ∧ hd44780_vsprintf stack (List.replicate 81 65) w
        = Except.error (Fault.out_of_bounds_read 80)
    ∧ hd44780_vsprintf stack (List.replicate 80 65) w
        = Except.ok (80, (List.replicate 79 65 ++ [0]).foldl formatted_step w) := by
  refine ⟨rfl, vsprintf_overrun stack (List.replicate 81 65) w (by decide), ?_⟩
  have hloop := vsprintf_loop_fits
    (vsnprintf stack HD44780_MAX_BUFFER_SIZE (List.replicate 80 65)).1
    (List.replicate 79 65 ++ [0]) 0 w (by decide) (by
      intro k hk
      have hk2 : k < 80 := hk
      rw [zero_add]
      interval_cases k <;> rfl)
  unfold hd44780_vsprintf
  have hlen : (vsnprintf stack HD44780_MAX_BUFFER_SIZE (List.replicate 80 65)).2 = 80 := rfl
  have h80 : (List.replicate 79 65 ++ [0]).length = 80 := rfl
  rw [h80] at hloop
  simp only [hlen]
  have h80b : (80 : Int).toNat = 80 := rfl
  rw [h80b, hloop]

/-- C8: for a rendered text that fits the scratch buffer (at most 79
characters, leaving room for the NUL) `hd44780_vsprintf` returns, and its
result is the left-to-right fold of the per-character step over the text; a
character other than line feed is handed to `hd44780_putchar`, which sends one
data byte (the character, RS high) followed by one set-DDRAM-address command;
a line feed is handed to `hd44780_nl`, which sends one set-DDRAM-address
command and no data byte.  On a 16-column display with cursor (0,0) the text
"Line1\nLine2" sends 'L','i','n','e','1' with the cursor advancing to (5,0),
then the line feed moves the cursor to (0,1) with command 0xC0 (DDRAM address
0x40), then "Line2" is sent from (0,1), ending at (5,1). -/
theorem vsprintf_emits_in_order (stack : Nat → Nat) (rendered : List Nat) (w : World)
    (hfit : rendered.length < HD44780_MAX_BUFFER_SIZE) :
    hd44780_vsprintf stack rendered w
        = Except.ok ((rendered.length : Int), rendered.foldl formatted_step w)
    ∧ (∀ (c : Nat) (v : World), c ≠ 10 →
        formatted_step v c = hd44780_putchar (c : Int) v
        ∧ ∃ a, a < 128 ∧ ∃ p, hd44780_putchar (c : Int) v
            = { params := { v.params with position := p },
                trace := v.trace ++ (bus_write v.params.bus v.params.bus8 true (c % 256)
                  ++ bus_write v.params.bus v.params.bus8 false (0x80 + a)) })
    ∧ (∀ v : World, formatted_step v 10 = hd44780_nl v
        ∧ ∃ a, a < 128 ∧ ∃ p, hd44780_nl v
            = { params := { v.params with position := p },
                trace := v.trace ++ bus_write v.params.bus v.params.bus8 false (0x80 + a) })
    ∧ (∀ (bus : hd44780_bus) (bus8 : Bool) (tr : List Event),
        [76, 105, 110, 101, 49].foldl formatted_step (display16 bus bus8 0 0 tr)
          = display16 bus bus8 5 0 (tr ++ bus_writes bus bus8
              [(true, 76), (false, 0x81), (true, 105), (false, 0x82), (true, 110),
               (false, 0x83), (true, 101), (false, 0x84), (true, 49), (false, 0x85)])
        ∧ hd44780_nl (display16 bus bus8 5 0 tr)
          = display16 bus bus8 0 1 (tr ++ bus_write bus bus8 false 0xC0)
        ∧ [76, 105, 110, 101, 50].foldl formatted_step (display16 bus bus8 0 1 tr)
          = display16 bus bus8 5 1 (tr ++ bus_writes bus bus8
              [(true, 76), (false, 0xC1), (true, 105), (false, 0xC2), (true, 110),
               (false, 0xC3), (true, 101), (false, 0xC4), (true, 50), (false, 0xC5)])
        ∧ hd44780_vsprintf stack line1_nl_line2 (display16 bus bus8 0 0 tr)
          = Except.ok (11, display16 bus bus8 5 1 (tr ++ bus_writes bus bus8
              [(true, 76), (false, 0x81), (true, 105), (false, 0x82), (true, 110),
               (false, 0x83), (true, 101), (false, 0x84), (true, 49), (false, 0x85),
               (false, 0xC0),
               (true, 76), (false, 0xC1), (true, 105), (false, 0xC2), (true, 110),
               (false, 0xC3), (true, 101), (false, 0xC4), (true, 50), (false, 0xC5)]))) := by
  refine ⟨vsprintf_fits_eq stack rendered w hfit, ?_, ?_, ?_⟩
  · intro c v hc
    refine ⟨by simp only [formatted_step, if_neg hc], ?_⟩
    have hcast : (((c : Nat) : Int) % 256).toNat = c % 256 := by omega
    have h := putchar_one_data_one_command (c : Int) v
    rw [hcast] at h
    exact h
  · intro v
    refine ⟨by simp only [formatted_step, if_true], ?_⟩
    rw [nl_eq]
    exact gotoxy_one_command 0 ((v.params.position.y + 1) % 256) v
  · intro bus bus8 tr
    refine ⟨?_, nl_display16_row0 bus bus8 tr 5, ?_, ?_⟩
    · norm_num [List.foldl, formatted_step, putchar_display16_row0, bus_writes]
      rfl
    · norm_num [List.foldl, formatted_step, putchar_display16_row1, bus_writes]
      rfl
    · rw [vsprintf_fits_eq stack line1_nl_line2 _ (by decide)]
      norm_num [line1_nl_line2, List.foldl, formatted_step, putchar_display16_row0,
        putchar_display16_row1, nl_display16_row0, bus_writes]
      rfl

/-- Witness for C8: the text "Line1\nLine2" on the 4-bit demo display, cursor
(0,0), nothing sent before. -/
theorem vsprintf_emits_in_order_witness :
    line1_nl_line2.length < HD44780_MAX_BUFFER_SIZE
    ∧ hd44780_vsprintf (fun _ => 0) line1_nl_line2 (demo4 0 0)
        = Except.ok (11, line1_nl_line2.foldl formatted_step (demo4 0 0))
    ∧ hd44780_vsprintf (fun _ => 0) line1_nl_line2 (display16 demo_bus false 0 0 [])
        = Except.ok (11, display16 demo_bus false 5 1 ([] ++ bus_writes demo_bus false
              [(true, 76), (false, 0x81), (true, 105), (false, 0x82), (true, 110),
               (false, 0x83), (true, 101), (false, 0x84), (true, 49), (false, 0x85),
               (false, 0xC0),
               (true, 76), (false, 0xC1), (true, 105), (false, 0xC2), (true, 110),
               (false, 0xC3), (true, 101), (false, 0xC4), (true, 50), (false, 0xC5)])) :=
  ⟨by decide,
    (vsprintf_emits_in_order (fun _ => 0) line1_nl_line2 (demo4 0 0) (by decide)).1,
    ((vsprintf_emits_in_order (fun _ => 0) line1_nl_line2 (demo4 0 0)
      (by decide)).2.2.2 demo_bus false []).2.2.2⟩

/-! ## Command layer (C9, C10) -/

/-- C9: `hd44780_clear` and `hd44780_home` each set the cursor to (0,0), leave
width, bus mode and bus descriptor as they were, and send exactly one command
byte (RS low): 0x01 for clear, 0x02 for home; home then delays 2 units. -/
theorem clear_home_reset_cursor (w : World) :
    ((hd44780_clear w).params.position = ⟨0, 0⟩
      ∧ (hd44780_clear w).params.width = w.params.width
      ∧ (hd44780_clear w).params.bus8 = w.params.bus8
      ∧ (hd44780_clear w).params.bus = w.params.bus
      ∧ (hd44780_clear w).trace
          = w.trace ++ bus_write w.params.bus w.params.bus8 false 0x01)
    ∧ ((hd44780_home w).params.position = ⟨0, 0⟩
      ∧ (hd44780_home w).params.width = w.params.width
      ∧ (hd44780_home w).params.bus8 = w.params.bus8
      ∧ (hd44780_home w).params.bus = w.params.bus
      ∧ (hd44780_home w).trace
          = w.trace ++ (bus_write w.params.bus w.params.bus8 false 0x02
              ++ [Event.sleep_ms 2])) := by
  have hc : hd44780_clear w
      = { params := { w.params with position := ⟨0, 0⟩ },
          trace := w.trace ++ bus_write w.params.bus w.params.bus8 false 0x01 } := by
    unfold hd44780_clear CLEAR_DISPLAY
    simp only [write_eq false 0x01 (by decide), set_position_x, set_position_y]
  have hh : hd44780_home w
      = { params := { w.params with position := ⟨0, 0⟩ },
          trace := w.trace ++ (bus_write w.params.bus w.params.bus8 false 0x02
            ++ [Event.sleep_ms 2]) } := by
    unfold hd44780_home RETURN_HOME
    simp only [write_eq false 0x02 (by decide), set_position_x, set_position_y, sleep_ms, emit,
      List.append_assoc]
  rw [hc, hh]
  exact ⟨⟨rfl, rfl, rfl, rfl, rfl⟩, rfl, rfl, rfl, rfl, rfl⟩

/-- C10: `hd44780_fnc(bus8, num_lines, big_fonts)` leaves the driver record
alone and sends exactly one command byte (RS low), equal to
0x20 | (big_fonts ? 0x04 : 0) | (num_lines > 1 ? 0x08 : 0) | (bus8 ? 0x10 : 0),
for every `num_lines`, 0 and 255 included. -/
theorem fnc_command_byte (bus8 big_fonts : Bool) (num_lines : Nat) (w : World) :
    hd44780_fnc bus8 num_lines big_fonts w
      = { w with trace := w.trace ++ (bus_write w.params.bus w.params.bus8 false
            (0x20 ||| (if big_fonts then 0x04 else 0) ||| (if num_lines > 1 then 0x08 else 0)
              ||| (if bus8 then 0x10 else 0))) } := by
  have hn : ((num_lines : Int) - 1 > 0) ↔ num_lines > 1 := by omega
  unfold hd44780_fnc FUNCTION_SET FUNCTION_SET_DL FUNCTION_SET_N FUNCTION_SET_F
  by_cases h : num_lines > 1
  · simp only [hn, h, if_true]
    cases bus8 <;> cases big_fonts <;> exact write_eq false _ (by decide) w
  · simp only [hn, h, if_false]
    cases bus8 <;> cases big_fonts <;> exact write_eq false _ (by decide) w

/-! ## Command layer (C11, C12, C19) -/

/-- C11: `hd44780_mode`, `hd44780_dispay_ctrl` and `hd44780_cursor_ctrl` each
leave the driver record (cursor included) alone and send exactly one command
byte (RS low): 0x04 | (shift ? 0x01 : 0) | (inc ? 0x02 : 0) for entry mode,
0x08 | (blink ? 0x01 : 0) | (cursor ? 0x02 : 0) | (on ? 0x04 : 0) for display
control, 0x10 | (display ? 0x08 : 0) | (right ? 0x04 : 0) for cursor control. -/
theorem mode_display_cursor_command_bytes (w : World) :
    (∀ inc shift : Bool,
      hd44780_mode inc shift w
        = { w with trace := w.trace ++ (bus_write w.params.bus w.params.bus8 false
              (0x04 ||| (if shift then 0x01 else 0) ||| (if inc then 0x02 else 0))) }
      ∧ (hd44780_mode inc shift w).params.position = w.params.position)
    ∧ (∀ display_on show_cursor cursor_blink : Bool,
      hd44780_dispay_ctrl display_on show_cursor cursor_blink w
        = { w with trace := w.trace ++ (bus_write w.params.bus w.params.bus8 false
              (0x08 ||| (if cursor_blink then 0x01 else 0) ||| (if show_cursor then 0x02 else 0)
                ||| (if display_on then 0x04 else 0))) }
      ∧ (hd44780_dispay_ctrl display_on show_cursor cursor_blink w).params.position
          = w.params.position)
    ∧ (∀ display right : Bool,
      hd44780_cursor_ctrl display right w
        = { w with trace := w.trace ++ (bus_write w.params.bus w.params.bus8 false
              (0x10 ||| (if display then 0x08 else 0) ||| (if right then 0x04 else 0))) }
      ∧ (hd44780_cursor_ctrl display right w).params.position = w.params.position) := by
  refine ⟨?_, ?_, ?_⟩
  · intro inc shift
    have h : hd44780_mode inc shift w
        = { w with trace := w.trace ++ (bus_write w.params.bus w.params.bus8 false
              (0x04 ||| (if shift then 0x01 else 0) ||| (if inc then 0x02 else 0))) } := by
      unfold hd44780_mode ENTRY_MODE_SET ENTRY_MODE_ID ENTRY_MODE_SH
      cases inc <;> cases shift <;> exact write_eq false _ (by decide) w
    exact ⟨h, by rw [h]⟩
  · intro display_on show_cursor cursor_blink
    have h : hd44780_dispay_ctrl display_on show_cursor cursor_blink w
        = { w with trace := w.trace ++ (bus_write w.params.bus w.params.bus8 false
              (0x08 ||| (if cursor_blink then 0x01 else 0) ||| (if show_cursor then 0x02 else 0)
                ||| (if display_on then 0x04 else 0))) } := by
      unfold hd44780_dispay_ctrl DISPLAY_CONTROL DISPLAY_CONTROL_D DISPLAY_CONTROL_C
        DISPLAY_CONTROL_B
      cases display_on <;> cases show_cursor <;> cases cursor_blink <;>
        exact write_eq false _ (by decide) w
    exact ⟨h, by rw [h]⟩
  · intro display right
    have h : hd44780_cursor_ctrl display right w
        = { w with trace := w.trace ++ (bus_write w.params.bus w.params.bus8 false
              (0x10 ||| (if display then 0x08 else 0) ||| (if right then 0x04 else 0))) } := by
      unfold hd44780_cursor_ctrl CURSOR_DISPLAY_SHIFT CURSOR_DISPLAY_SC CURSOR_DISPLAY_RL
      cases display <;> cases right <;> exact write_eq false _ (by decide) w
    exact ⟨h, by rw [h]⟩

theorem and_3F_eq_mod (addr : Nat) : addr &&& 0x3F = addr % 64 := by
  have h := Nat.and_pow_two_sub_one_eq_mod addr 6
  norm_num at h
  exact h

theorem cgram_opcode_bits (k : Nat) (hk : k < 64) :
    0x40 + k = 0x40 ||| k ∧ (0x40 + k) &&& 0xC0 = 0x40 := by
  interval_cases k <;> exact ⟨rfl, rfl⟩

theorem ddram_opcode_bits (k : Nat) (hk : k < 128) :
    0x80 + k = 0x80 ||| k ∧ (0x80 + k) &&& 0x80 = 0x80 := by
  interval_cases k <;> exact ⟨rfl, rfl⟩

/-- C12: `hd44780_set_CGRAM_addr(addr)` sends the one command byte
0x40 + (addr & 0x3F), which lies in 0x40..0x7F, and
`hd44780_set_DDRAM_addr(addr)` sends 0x80 + (addr & 0x7F), which lies in
0x80..0xFF: the sum stays below 256 (no reduction mod 256 takes place), it
equals the bitwise OR of opcode and masked address, and the opcode bits
(mask 0xC0, resp. 0x80) read back as 0x40, resp. 0x80. -/
theorem set_addr_command_bytes (addr : Nat) (w : World) :
    (hd44780_set_CGRAM_addr addr w
        = { w with trace := w.trace
              ++ bus_write w.params.bus w.params.bus8 false (0x40 + (addr &&& 0x3F)) }
      ∧ 0x40 ≤ 0x40 + (addr &&& 0x3F) ∧ 0x40 + (addr &&& 0x3F) ≤ 0x7F
      ∧ 0x40 + (addr &&& 0x3F) = 0x40 ||| (addr &&& 0x3F)
      ∧ (0x40 + (addr &&& 0x3F)) &&& 0xC0 = 0x40)
    ∧ (hd44780_set_DDRAM_addr addr w
        = { w with trace := w.trace
              ++ bus_write w.params.bus w.params.bus8 false (0x80 + (addr &&& 0x7F)) }
      ∧ 0x80 ≤ 0x80 + (addr &&& 0x7F) ∧ 0x80 + (addr &&& 0x7F) ≤ 0xFF
      ∧ 0x80 + (addr &&& 0x7F) = 0x80 ||| (addr &&& 0x7F)
      ∧ (0x80 + (addr &&& 0x7F)) &&& 0x80 = 0x80) := by
  have hc : addr &&& 0x3F < 64 := by rw [and_3F_eq_mod]; omega
  have hd : addr &&& 0x7F < 128 := by rw [and_7F_eq_mod]; omega
  refine ⟨⟨?_, by omega, by omega, (cgram_opcode_bits _ hc).1, (cgram_opcode_bits _ hc).2⟩,
    ⟨?_, by omega, by omega, (ddram_opcode_bits _ hd).1, (ddram_opcode_bits _ hd).2⟩⟩
  · unfold hd44780_set_CGRAM_addr SET_CG_RAM_ADDR CG_RAM_ADDR_MASK
    have h : (0x40 + (addr &&& 0x3F)) % 256 = 0x40 + (addr &&& 0x3F) := by omega
    simp only [h]
    rw [write_eq _ _ (by omega)]
  · unfold hd44780_set_DDRAM_addr SET_DD_RAM_ADDR DD_RAM_ADDR_MASK
    have h : (0x80 + (addr &&& 0x7F)) % 256 = 0x80 + (addr &&& 0x7F) := by omega
    simp only [h]
    rw [write_eq _ _ (by omega)]

/-- C19: `hd44780_busy()` delays exactly one time unit (its only external call
is `sleep_ms(1)`: no GPIO line is touched), returns true, and leaves the driver
record as it was. -/
theorem busy_delays_one_returns_true (w : World) :
    hd44780_busy w = (true, { w with trace := w.trace ++ [Event.sleep_ms 1] })
    ∧ (hd44780_busy w).1 = true
    ∧ (hd44780_busy w).2.params = w.params
    ∧ (hd44780_busy w).2.trace = w.trace ++ [Event.sleep_ms 1] :=
  ⟨rfl, rfl, rfl, rfl⟩

/-! ## Initialization sequence (C13, C14) -/

theorem write_params (rs : Bool) (data : Nat) (w : World) :
    (hd44780_write rs data w).params = w.params := by
  unfold hd44780_write
  split
  · rw [write_byte_eq]
  · simp only [write_half_byte_eq]

theorem clear_eq (w : World) :
    hd44780_clear w
      = { params := { w.params with position := ⟨0, 0⟩ },
          trace := w.trace ++ bus_write w.params.bus w.params.bus8 false 0x01 } := by
  unfold hd44780_clear CLEAR_DISPLAY
  simp only [write_eq false 0x01 (by decide), set_position_x, set_position_y]

theorem home_eq (w : World) :
    hd44780_home w
      = { params := { w.params with position := ⟨0, 0⟩ },
          trace := w.trace ++ (bus_write w.params.bus w.params.bus8 false 0x02
            ++ [Event.sleep_ms 2]) } := by
  unfold hd44780_home RETURN_HOME
  simp only [write_eq false 0x02 (by decide), set_position_x, set_position_y, sleep_ms, emit,
    List.append_assoc]

theorem fnc_init_eq (num_lines : Nat) (w : World) :
    hd44780_fnc false num_lines false w
      = { w with trace := w.trace ++ (bus_write w.params.bus w.params.bus8 false
            (0x20 ||| (if num_lines > 1 then 0x08 else 0))) } := by
  have hn : ((num_lines : Int) - 1 > 0) ↔ num_lines > 1 := by omega
  unfold hd44780_fnc FUNCTION_SET FUNCTION_SET_DL FUNCTION_SET_N FUNCTION_SET_F
  by_cases h : num_lines > 1
  · simp only [hn, h, if_true]
    exact write_eq false _ (by decide) w
  · simp only [hn, h, if_false]
    exact write_eq false _ (by decide) w

theorem dispay_ctrl_init_eq (w : World) :
    hd44780_dispay_ctrl true false false w
      = { w with trace := w.trace ++ bus_write w.params.bus w.params.bus8 false 0x0C } :=
  write_eq false _ (by decide) w

theorem mode_init_eq (w : World) :
    hd44780_mode true false w
      = { w with trace := w.trace ++ bus_write w.params.bus w.params.bus8 false 0x06 } :=
  write_eq false _ (by decide) w

theorem cursor_ctrl_init_eq (w : World) :
    hd44780_cursor_ctrl false false w
      = { w with trace := w.trace ++ bus_write w.params.bus w.params.bus8 false 0x10 } :=
  write_eq false _ (by decide) w

theorem init_4bits_eq (w : World) :
    hd44780_init_4bits w = { w with trace := w.trace ++ priming w.params.bus } := by
  unfold hd44780_init_4bits
  have h3 : ((FUNCTION_SET ||| FUNCTION_SET_DL) >>> 4) % 256 = 0x3 := by decide
  have h2 : (FUNCTION_SET >>> 4) % 256 = 0x2 := by decide
  simp only [h3, h2, write_half_byte_eq, sleep_ms, emit, priming, List.append_assoc]

theorem init_line_eq (t : Target) (p : hd44780_gpio) (w : World) :
    init_line t p w
      = (match port2RCC t p.port with
        | none => Run.halted w
        | some clken => Run.returned { w with trace := w.trace ++ line_setup t clken p }) := by
  unfold init_line
  split <;> simp [rcc_periph_clock_enable, gpio_clear, gpio_mode_setup, emit, line_setup]

theorem setup_run_eq (t : Target) (ps : List hd44780_gpio) :
    ∀ w : World, setup_run t ps w
      = if (lines_setup t ps).2 = true
        then Run.returned { w with trace := w.trace ++ (lines_setup t ps).1 }
        else Run.halted { w with trace := w.trace ++ (lines_setup t ps).1 } := by
  induction ps with
  | nil => intro w; simp [setup_run, lines_setup]
  | cons p rest ih =>
    intro w
    simp only [setup_run, lines_setup, init_line_eq]
    cases hp : port2RCC t p.port with
    | none => simp [Run.bind]
    | some clken =>
      simp only [Run.bind, ih]
      split <;> simp [List.append_assoc]

theorem lines_setup_is_setup (t : Target) (ps : List hd44780_gpio) :
    ∀ ev ∈ (lines_setup t ps).1, ev.is_setup = true := by
  induction ps with
  | nil => intro ev hev; simp [lines_setup] at hev
  | cons p rest ih =>
    intro ev hev
    simp only [lines_setup] at hev
    cases hp : port2RCC t p.port with
    | none => rw [hp] at hev; simp at hev
    | some clken =>
      rw [hp] at hev
      simp only [List.mem_append] at hev
      rcases hev with h | h
      · simp only [line_setup, List.mem_cons, List.mem_singleton, List.not_mem_nil,
          or_false] at h
        rcases h with rfl | rfl | rfl <;> rfl
      · exact ih ev h

theorem lines_setup_complete (t : Target) (ps : List hd44780_gpio)
    (h : ∀ p ∈ ps, (port2RCC t p.port).isSome = true) : (lines_setup t ps).2 = true := by
  induction ps with
  | nil => rfl
  | cons p rest ih =>
    have hp := h p (List.mem_cons_self p rest)
    obtain ⟨clken, hc⟩ := Option.isSome_iff_exists.mp hp
    simp only [lines_setup, hc]
    exact ih (fun q hq => h q (List.mem_cons_of_mem p hq))

theorem Run.bind_assoc (r : Run) (f g : World → Run) :
    (r.bind f).bind g = r.bind (fun w => (f w).bind g) := by
  cases r <;> rfl

theorem init_tail_eq (bus8 : Bool) (num_lines : Nat) (w : World) (hb : w.params.bus8 = bus8) :
    hd44780_home (hd44780_clear (hd44780_cursor_ctrl false false (hd44780_mode true false
      (hd44780_dispay_ctrl true false false (hd44780_fnc false num_lines false
        (if (!bus8) = true then hd44780_init_4bits (sleep_ms 40 w) else sleep_ms 40 w))))))
      = { params := { w.params with position := ⟨0, 0⟩ },
          trace := w.trace ++ ([Event.sleep_ms 40]
            ++ ((if bus8 = true then [] else priming w.params.bus)
            ++ (bus_writes w.params.bus bus8 (init_commands num_lines)
            ++ [Event.sleep_ms 2]))) } := by
  subst hb
  rw [home_eq, clear_eq, cursor_ctrl_init_eq, mode_init_eq, dispay_ctrl_init_eq, fnc_init_eq]
  cases hb8 : w.params.bus8
  · simp [init_4bits_eq, sleep_ms, emit, bus_writes, init_commands, hb8, List.append_assoc]
  · simp [sleep_ms, emit, bus_writes, init_commands, hb8, List.append_assoc]

theorem init_eq (t : Target) (bus : hd44780_bus) (width : Nat) (bus8 : Bool)
    (num_lines : Nat) (big_fonts : Bool) (w : World) :
    hd44780_init t bus width bus8 num_lines big_fonts w
      = if (lines_setup t (init_lines bus bus8)).2 = true
        then Run.returned
          { params := ⟨width, bus8, bus, ⟨0, 0⟩⟩,
            trace := w.trace ++ ((lines_setup t (init_lines bus bus8)).1
              ++ ([Event.sleep_ms 40]
              ++ ((if bus8 = true then [] else priming bus)
              ++ (bus_writes bus bus8 (init_commands num_lines)
              ++ [Event.sleep_ms 2])))) }
        else Run.halted
          { params := ⟨width, bus8, bus, ⟨0, 0⟩⟩,
            trace := w.trace ++ (lines_setup t (init_lines bus bus8)).1 } := by
  have hrun : hd44780_init t bus width bus8 num_lines big_fonts w
      = (setup_run t (init_lines bus bus8) ⟨⟨width, bus8, bus, ⟨0, 0⟩⟩, w.trace⟩).bind
          (fun w1 => Run.returned (hd44780_home (hd44780_clear (hd44780_cursor_ctrl false false
            (hd44780_mode true false (hd44780_dispay_ctrl true false false
              (hd44780_fnc false num_lines false
                (if (!bus8) = true then hd44780_init_4bits (sleep_ms 40 w1)
                  else sleep_ms 40 w1)))))))) := by
    unfold hd44780_init
    cases bus8
    · simp only [init_lines, setup_run, set_position_x, set_position_y, Run.bind_assoc,
        Bool.false_eq_true, if_false, List.append_nil]
    · simp only [init_lines, setup_run, set_position_x, set_position_y, Run.bind_assoc,
        if_true, List.cons_append, List.nil_append]
      rfl
  rw [hrun, setup_run_eq]
  split
  · simp only [Run.bind]
    rw [init_tail_eq bus8 num_lines _ rfl]
    simp [List.append_assoc]
  · simp only [Run.bind]

/-- C13: `hd44780_init_4bits` leaves the driver record alone and emits exactly
four nibble cycles with RS low: nibble 0x3, delay 15, nibble 0x3, delay 15,
nibble 0x3, delay 15, nibble 0x2, and nothing after the last cycle.  When
`hd44780_init` returns in 4-bit mode this priming sits between the 40-unit
delay and the function-set command; in 8-bit mode the function-set byte cycle
follows the 40-unit delay directly, so no priming cycle is performed; when
`hd44780_init` is halted in `port2RCC` only line-configuration calls were
made. -/
theorem init_4bits_priming (w : World) :
    hd44780_init_4bits w = { w with trace := w.trace ++ priming w.params.bus }
    ∧ priming w.params.bus
        = nibble_cycle w.params.bus false 0x3 ++ [Event.sleep_ms 15]
          ++ (nibble_cycle w.params.bus false 0x3 ++ [Event.sleep_ms 15]
          ++ (nibble_cycle w.params.bus false 0x3 ++ [Event.sleep_ms 15]
          ++ nibble_cycle w.params.bus false 0x2))
    ∧ (∀ (t : Target) (bus : hd44780_bus) (width num_lines : Nat) (big_fonts : Bool),
        hd44780_init t bus width false num_lines big_fonts w
          = if (lines_setup t (init_lines bus false)).2 = true
            then Run.returned
              { params := ⟨width, false, bus, ⟨0, 0⟩⟩,
                trace := w.trace ++ ((lines_setup t (init_lines bus false)).1
                  ++ ([Event.sleep_ms 40] ++ (priming bus
                  ++ (bus_writes bus false (init_commands num_lines)
                  ++ [Event.sleep_ms 2])))) }
            else Run.halted
              { params := ⟨width, false, bus, ⟨0, 0⟩⟩,
                trace := w.trace ++ (lines_setup t (init_lines bus false)).1 })
    ∧ (∀ (t : Target) (bus : hd44780_bus) (width num_lines : Nat) (big_fonts : Bool),
        hd44780_init t bus width true num_lines big_fonts w
          = if (lines_setup t (init_lines bus true)).2 = true
            then Run.returned
              { params := ⟨width, true, bus, ⟨0, 0⟩⟩,
                trace := w.trace ++ ((lines_setup t (init_lines bus true)).1
                  ++ ([Event.sleep_ms 40]
                  ++ (bus_writes bus true (init_commands num_lines)
                  ++ [Event.sleep_ms 2]))) }
            else Run.halted
              { params := ⟨width, true, bus, ⟨0, 0⟩⟩,
                trace := w.trace ++ (lines_setup t (init_lines bus true)).1 })
    ∧ (∀ (t : Target) (bus : hd44780_bus) (bus8 : Bool),
        ∀ ev ∈ (lines_setup t (init_lines bus bus8)).1, ev.is_setup = true) := by
  refine ⟨init_4bits_eq w, rfl, ?_, ?_, ?_⟩
  · intro t bus width num_lines big_fonts
    rw [init_eq]
    simp
  · intro t bus width num_lines big_fonts
    rw [init_eq]
    simp
  · intro t bus bus8
    exact lines_setup_is_setup t (init_lines bus bus8)

/-- C14, as stated, fails: on `demo_target` (ports 0..4 known) with RS on port
5, `hd44780_init` is halted at the `BKPT` of `port2RCC` before any call was
made: no 40-unit delay and no command byte is sent. -/
theorem init_halts_on_unknown_port :
    hd44780_init demo_target demo_bus_port5 16 false 2 false (demo4 3 1)
        = Run.halted ⟨⟨16, false, demo_bus_port5, ⟨0, 0⟩⟩, []⟩
    ∧ (hd44780_init demo_target demo_bus_port5 16 false 2 false (demo4 3 1)).completed = false
    ∧ Event.sleep_ms 40
        ∉ (hd44780_init demo_target demo_bus_port5 16 false 2 false (demo4 3 1)).world.trace := by
  decide

/-- C14, amended: when every line that init configures (RS, E, RNW, DB7..DB4,
and DB3..DB0 in 8-bit mode) is on a port that `port2RCC` knows, `hd44780_init`
returns; the calls it made are, in order: line-configuration calls only (no
`gpio_set`, no delay), the 40-unit delay, the 4-bit priming when `bus8` is
false, exactly the command bytes 0x20 | (num_lines > 1 ? 0x08 : 0), 0x0C, 0x06,
0x10, 0x01, 0x02 (a list that mentions neither `bus8` nor `big_fonts`), and the
2-unit delay of home; the record on return holds the given width, bus mode and
bus, and cursor (0,0). -/
theorem init_sequence_on_known_ports (t : Target) (bus : hd44780_bus) (width : Nat)
    (bus8 : Bool) (num_lines : Nat) (big_fonts : Bool) (w : World)
    (hports : ∀ p ∈ init_lines bus bus8, (port2RCC t p.port).isSome = true) :
    hd44780_init t bus width bus8 num_lines big_fonts w
        = Run.returned
          { params := ⟨width, bus8, bus, ⟨0, 0⟩⟩,
            trace := w.trace ++ ((lines_setup t (init_lines bus bus8)).1
              ++ ([Event.sleep_ms 40]
              ++ ((if bus8 = true then [] else priming bus)
              ++ (bus_writes bus bus8 (init_commands num_lines)
              ++ [Event.sleep_ms 2])))) }
    ∧ (∀ ev ∈ (lines_setup t (init_lines bus bus8)).1, ev.is_setup = true)
    ∧ init_commands num_lines
        = [(false, 0x20 ||| (if num_lines > 1 then 0x08 else 0)), (false, 0x0C),
           (false, 0x06), (false, 0x10), (false, 0x01), (false, 0x02)] := by
  refine ⟨?_, lines_setup_is_setup t (init_lines bus bus8), rfl⟩
  rw [init_eq, if_pos (lines_setup_complete t _ hports)]

/-- Witness for C14 (amended): the 4-bit demo display on `demo_target`. -/
theorem init_sequence_on_known_ports_witness :
    (∀ p ∈ init_lines demo_bus false, (port2RCC demo_target p.port).isSome = true)
    ∧ hd44780_init demo_target demo_bus 16 false 2 false (demo4 3 1)
        = Run.returned
          { params := ⟨16, false, demo_bus, ⟨0, 0⟩⟩,
            trace := (demo4 3 1).trace ++ ((lines_setup demo_target (init_lines demo_bus false)).1
              ++ ([Event.sleep_ms 40]
              ++ ((if false = true then [] else priming demo_bus)
              ++ (bus_writes demo_bus false (init_commands 2)
              ++ [Event.sleep_ms 2])))) } :=
  ⟨by decide,
    (init_sequence_on_known_ports demo_target demo_bus 16 false 2 false (demo4 3 1)
      (by decide)).1⟩

/-! ## Cursor invariants (C15, C16) -/

theorem gotoxy_cursor (x y : Nat) (w : World) :
    ∃ a p, hd44780_gotoxy x y w
        = { params := { w.params with position := p },
            trace := w.trace ++ bus_write w.params.bus w.params.bus8 false (0x80 + a) }
      ∧ (p.x = 0 ∨ p.x < w.params.width)
      ∧ (p.y = 0 ∨ p.y = 1 ∨ p.y = w.params.position.y) := by
  by_cases hx : x < w.params.width
  · rcases y with _ | _ | k
    · exact ⟨_, _, gotoxy_row0 x w hx, Or.inr hx, Or.inr (Or.inr rfl)⟩
    · exact ⟨_, _, gotoxy_row1 x w hx, Or.inr hx, Or.inr (Or.inl rfl)⟩
    · exact ⟨0, _, gotoxy_row_ge2 x (k + 1 + 1) w hx (by omega), Or.inl rfl, Or.inl rfl⟩
  · rw [gotoxy_wrap x y w (not_lt.mp hx)]
    split
    · exact ⟨0, _, rfl, Or.inl rfl, Or.inr (Or.inr rfl)⟩
    · exact ⟨0x40, _, rfl, Or.inl rfl, Or.inr (Or.inl rfl)⟩
    · exact ⟨0, _, rfl, Or.inl rfl, Or.inl rfl⟩

theorem vsprintf_loop_preserves (P : World → Prop) (buf : Nat → Nat)
    (hnl : ∀ w, P w → P (hd44780_nl w))
    (hpc : ∀ ch w, P w → P (hd44780_putchar ch w)) :
    ∀ (n i : Nat) (w w2 : World), P w → hd44780_vsprintf_loop buf n i w = Except.ok w2 → P w2 := by
  intro n
  induction n with
  | zero =>
    intro i w w2 hP h
    simp only [hd44780_vsprintf_loop, Except.ok.injEq] at h
    rw [← h]; exact hP
  | succ n ih =>
    intro i w w2 hP h
    simp only [hd44780_vsprintf_loop] at h
    cases hr : buf_read buf i with
    | error f => rw [hr] at h; simp at h
    | ok c =>
      rw [hr] at h
      simp only at h
      by_cases h10 : c = 10
      · rw [if_pos h10] at h
        exact ih _ _ _ (hnl w hP) h
      · rw [if_neg h10] at h
        exact ih _ _ _ (hpc _ w hP) h

theorem vsprintf_preserves (P : World → Prop) (stack : Nat → Nat) (rendered : List Nat)
    (hnl : ∀ w, P w → P (hd44780_nl w))
    (hpc : ∀ ch w, P w → P (hd44780_putchar ch w))
    (w : World) (r : Int × World) (hP : P w)
    (h : hd44780_vsprintf stack rendered w = Except.ok r) : P r.2 := by
  unfold hd44780_vsprintf at h
  simp only at h
  split at h
  · simp at h
  · rename_i w2 hloop
    simp only [Except.ok.injEq] at h
    rw [← h]
    exact vsprintf_loop_preserves P _ hnl hpc _ _ _ _ hP hloop

/-- A property of the driver record that survives every call of the driver:
it is enough that it does not look at the trace, survives `hd44780_gotoxy`, and
survives resetting the cursor to (0,0). -/
theorem ops_preserve (P : World → Prop)
    (hframe : ∀ w w2 : World, w2.params = w.params → P w → P w2)
    (hgoto : ∀ x y w, P w → P (hd44780_gotoxy x y w))
    (hreset : ∀ (w : World) (tr : List Event), P w →
      P { params := { w.params with position := ⟨0, 0⟩ }, trace := tr }) :
    ∀ (ops : List Op) (w w2 : World), P w → run_ops ops w = Except.ok w2 → P w2 := by
  have hnl : ∀ w, P w → P (hd44780_nl w) := fun w hP => hgoto _ _ w hP
  have hpc : ∀ ch w, P w → P (hd44780_putchar ch w) := by
    intro ch w hP
    rw [putchar_eq]
    exact hgoto _ _ _ (hframe w _ rfl hP)
  have hstep : ∀ (op : Op) (w w2 : World), P w → op.apply w = Except.ok w2 → P w2 := by
    intro op w w2 hP h
    cases op with
    | gotoxy x y =>
      simp only [Op.apply, Except.ok.injEq] at h; rw [← h]; exact hgoto x y w hP
    | nl => simp only [Op.apply, Except.ok.injEq] at h; rw [← h]; exact hnl w hP
    | busy =>
      simp only [Op.apply, Except.ok.injEq] at h; rw [← h]; exact hframe w _ rfl hP
    | clear =>
      simp only [Op.apply, Except.ok.injEq] at h; rw [← h, clear_eq]; exact hreset w _ hP
    | home =>
      simp only [Op.apply, Except.ok.injEq] at h; rw [← h, home_eq]; exact hreset w _ hP
    | mode inc shift =>
      simp only [Op.apply, Except.ok.injEq] at h; rw [← h]
      exact hframe w _ (write_params _ _ _) hP
    | dispay_ctrl a b c =>
      simp only [Op.apply, Except.ok.injEq] at h; rw [← h]
      exact hframe w _ (write_params _ _ _) hP
    | cursor_ctrl a b =>
      simp only [Op.apply, Except.ok.injEq] at h; rw [← h]
      exact hframe w _ (write_params _ _ _) hP
    | fnc a n b =>
      simp only [Op.apply, Except.ok.injEq] at h; rw [← h]
      exact hframe w _ (write_params _ _ _) hP
    | set_CGRAM_addr a =>
      simp only [Op.apply, Except.ok.injEq] at h; rw [← h]
      exact hframe w _ (write_params _ _ _) hP
    | set_DDRAM_addr a =>
      simp only [Op.apply, Except.ok.injEq] at h; rw [← h]
      exact hframe w _ (write_params _ _ _) hP
    | putchar ch =>
      simp only [Op.apply, Except.ok.injEq] at h; rw [← h]; exact hpc ch w hP
    | putchar_xy x y ch =>
      simp only [Op.apply, Except.ok.injEq] at h; rw [← h]
      exact hpc ch _ (hgoto x y w hP)
    | printf stack rendered =>
      simp only [Op.apply, hd44780_printf] at h
      split at h
      · simp at h
      · rename_i r hr
        simp only [Except.ok.injEq] at h
        rw [← h]
        exact vsprintf_preserves P stack rendered hnl hpc w r hP hr
    | printf_xy x y stack rendered =>
      simp only [Op.apply, hd44780_printf_xy] at h
      split at h
      · simp at h
      · rename_i r hr
        simp only [Except.ok.injEq] at h
        rw [← h]
        exact vsprintf_preserves P stack rendered hnl hpc _ r (hgoto x y w hP) hr
  intro ops
  induction ops with
  | nil =>
    intro w w2 hP h
    simp only [run_ops, Except.ok.injEq] at h
    rw [← h]; exact hP
  | cons op rest ih =>
    intro w w2 hP h
    simp only [run_ops] at h
    cases hop : op.apply w with
    | error f => rw [hop] at h; simp at h
    | ok w1 =>
      rw [hop] at h
      exact ih w1 w2 (hstep op w w1 hP hop) h

theorem init_world_params (t : Target) (bus : hd44780_bus) (width : Nat) (bus8 : Bool)
    (num_lines : Nat) (big_fonts : Bool) (w : World) :
    (hd44780_init t bus width bus8 num_lines big_fonts w).world.params
      = ⟨width, bus8, bus, ⟨0, 0⟩⟩ := by
  rw [init_eq]
  split <;> rfl

/-- C15, as stated, fails for width 0: `hd44780_init` with width 0 returns, and
after `hd44780_clear` the cursor column is 0, which is not strictly less than
the recorded width 0. -/
theorem column_not_below_width_zero :
    (hd44780_init demo_target demo_bus 0 false 2 false (demo4 3 1)).completed = true
    ∧ (hd44780_clear
        (hd44780_init demo_target demo_bus 0 false 2 false (demo4 3 1)).world).params.width = 0
    ∧ (hd44780_clear
        (hd44780_init demo_target demo_bus 0 false 2 false (demo4 3 1)).world).params.position.x
        = 0
    ∧ ¬ ((hd44780_clear
        (hd44780_init demo_target demo_bus 0 false 2 false (demo4 3 1)).world).params.position.x
        < (hd44780_clear
        (hd44780_init demo_target demo_bus 0 false 2 false (demo4 3 1)).world).params.width) := by
  decide

/-- C15, amended: for every width of at least 1 recorded by a `hd44780_init`
that returned, after every sequence of driver calls that completes (gotoxy, nl,
putchar, putchar_xy, printf, printf_xy, clear, home and the other commands, with
any arguments) the recorded width is unchanged and the cursor column is
strictly less than it. -/
theorem column_below_width (t : Target) (bus : hd44780_bus) (width : Nat) (bus8 : Bool)
    (num_lines : Nat) (big_fonts : Bool) (w0 : World) (ops : List Op) (w2 : World)
    (hwidth : 1 ≤ width)
    (hinit : (hd44780_init t bus width bus8 num_lines big_fonts w0).completed = true)
    (hrun : run_ops ops (hd44780_init t bus width bus8 num_lines big_fonts w0).world
      = Except.ok w2) :
    w2.params.width = width ∧ w2.params.position.x < w2.params.width := by
  have _ := hinit
  have hp := init_world_params t bus width bus8 num_lines big_fonts w0
  have hinv := ops_preserve
    (fun w => w.params.width = width ∧ w.params.position.x < w.params.width)
    (by intro w w2 h hP; rw [h]; exact hP)
    (by
      intro x y w hP
      obtain ⟨a, p, hg, hx, _⟩ := gotoxy_cursor x y w
      rw [hg]
      refine ⟨hP.1, ?_⟩
      rcases hx with h | h
      · show p.x < w.params.width
        rw [h]; omega
      · exact h)
    (by
      intro w tr hP
      refine ⟨hP.1, ?_⟩
      show 0 < w.params.width
      omega)
    ops _ w2 (by beta_reduce; rw [hp]; exact ⟨rfl, hwidth⟩) hrun
  exact hinv

/-- Witness for C15 (amended): init of the 16-column demo display, then a
character put at the last column of row 1 and a newline. -/
theorem column_below_width_witness :
    1 ≤ 16
    ∧ (hd44780_init demo_target demo_bus 16 false 2 false (demo4 3 1)).completed = true
    ∧ run_ops [Op.putchar_xy 15 1 65, Op.nl]
        (hd44780_init demo_target demo_bus 16 false 2 false (demo4 3 1)).world
        = Except.ok (hd44780_nl (hd44780_putchar_xy 15 1 65
            (hd44780_init demo_target demo_bus 16 false 2 false (demo4 3 1)).world))
    ∧ (hd44780_nl (hd44780_putchar_xy 15 1 65
        (hd44780_init demo_target demo_bus 16 false 2 false (demo4 3 1)).world)).params.position.x
        < (hd44780_nl (hd44780_putchar_xy 15 1 65
        (hd44780_init demo_target demo_bus 16 false 2 false (demo4 3 1)).world)).params.width :=
  ⟨by decide, by decide, rfl,
    (column_below_width demo_target demo_bus 16 false 2 false (demo4 3 1)
      [Op.putchar_xy 15 1 65, Op.nl] _ (by decide) (by decide) rfl).2⟩

/-- C16: after a `hd44780_init` that returned (any target, bus, width, bus
mode, line count and font) and any sequence of driver calls that completes,
with any arguments, the cursor row is 0 or 1. -/
theorem row_zero_or_one (t : Target) (bus : hd44780_bus) (width : Nat) (bus8 : Bool)
    (num_lines : Nat) (big_fonts : Bool) (w0 : World) (ops : List Op) (w2 : World)
    (hinit : (hd44780_init t bus width bus8 num_lines big_fonts w0).completed = true)
    (hrun : run_ops ops (hd44780_init t bus width bus8 num_lines big_fonts w0).world
      = Except.ok w2) :
    w2.params.position.y = 0 ∨ w2.params.position.y = 1 := by
  have _ := hinit
  have hp := init_world_params t bus width bus8 num_lines big_fonts w0
  exact ops_preserve
    (fun w => w.params.position.y = 0 ∨ w.params.position.y = 1)
    (by intro w w2 h hP; rw [h]; exact hP)
    (by
      intro x y w hP
      obtain ⟨a, p, hg, _, hy⟩ := gotoxy_cursor x y w
      rw [hg]
      show p.y = 0 ∨ p.y = 1
      rcases hy with h | h | h
      · exact Or.inl h
      · exact Or.inr h
      · rw [h]; exact hP)
    (by intro w tr _; exact Or.inl rfl)
    ops _ w2 (by beta_reduce; rw [hp]; exact Or.inl rfl) hrun

/-- Witness for C16: init of the 16-column demo display, then a move to row
200 and a newline. -/
theorem row_zero_or_one_witness :
    (hd44780_init demo_target demo_bus 16 false 2 false (demo4 3 1)).completed = true
    ∧ run_ops [Op.gotoxy 3 200, Op.nl]
        (hd44780_init demo_target demo_bus 16 false 2 false (demo4 3 1)).world
        = Except.ok (hd44780_nl (hd44780_gotoxy 3 200
            (hd44780_init demo_target demo_bus 16 false 2 false (demo4 3 1)).world))
    ∧ ((hd44780_nl (hd44780_gotoxy 3 200
        (hd44780_init demo_target demo_bus 16 false 2 false (demo4 3 1)).world)).params.position.y
          = 0
      ∨ (hd44780_nl (hd44780_gotoxy 3 200
        (hd44780_init demo_target demo_bus 16 false 2 false (demo4 3 1)).world)).params.position.y
          = 1) :=
  ⟨by decide, rfl,
    row_zero_or_one demo_target demo_bus 16 false 2 false (demo4 3 1)
      [Op.gotoxy 3 200, Op.nl] _ (by decide) rfl⟩

/-! ## User-defined characters (C17) -/

theorem set_CGRAM_addr_eq (addr : Nat) (w : World) :
    hd44780_set_CGRAM_addr addr w
      = { w with trace := w.trace
            ++ bus_write w.params.bus w.params.bus8 false (0x40 + (addr &&& 0x3F)) } := by
  have hc : addr &&& 0x3F < 64 := by rw [and_3F_eq_mod]; omega
  unfold hd44780_set_CGRAM_addr SET_CG_RAM_ADDR CG_RAM_ADDR_MASK
  have h : (0x40 + (addr &&& 0x3F)) % 256 = 0x40 + (addr &&& 0x3F) := by omega
  simp only [h]
  rw [write_eq _ _ (by omega)]

theorem foldl_write_data (pattern : Nat → Nat) (l : List Nat) :
    ∀ w : World, (∀ i ∈ l, pattern i < 256) →
      l.foldl (fun w i => hd44780_write true (pattern i) w) w
        = { w with trace := w.trace
              ++ bus_writes w.params.bus w.params.bus8 (l.map (fun i => (true, pattern i))) } := by
  induction l with
  | nil => intro w _; simp [bus_writes]
  | cons i rest ih =>
    intro w h
    have hi : pattern i < 256 := h i (List.mem_cons_self i rest)
    simp only [List.foldl_cons, List.map_cons, bus_writes]
    rw [ih _ (fun j hj => h j (List.mem_cons_of_mem i hj)), write_eq true _ hi]
    simp only [List.append_assoc]

/-- C17 (against the definition modelled from the spec): with pattern bytes
that are 8-bit values, `hd44780_define_char(addr, pattern, size)` leaves the
driver record alone, first sends the set-CGRAM-address command for `addr`
(byte 0x40 + (addr & 0x3F), RS low) and then sends exactly `pattern[0]`, ...,
`pattern[size-1]`, in that order, each as one data write (RS high). -/
theorem define_char_streams_pattern (addr : Nat) (pattern : Nat → Nat) (size : Nat) (w : World)
    (hbytes : ∀ i, i < size → pattern i < 256) :
    hd44780_define_char addr pattern size w
        = { w with trace := w.trace
              ++ (bus_write w.params.bus w.params.bus8 false (0x40 + (addr &&& 0x3F))
              ++ bus_writes w.params.bus w.params.bus8
                  ((List.range size).map (fun i => (true, pattern i)))) }
    ∧ (hd44780_set_CGRAM_addr addr w).trace
        = w.trace ++ bus_write w.params.bus w.params.bus8 false (0x40 + (addr &&& 0x3F))
    ∧ ((List.range size).map (fun i => (true, pattern i))).length = size := by
  refine ⟨?_, by rw [set_CGRAM_addr_eq], by simp⟩
  unfold hd44780_define_char
  simp only []
  rw [foldl_write_data pattern (List.range size) _
    (fun i hi => hbytes i (List.mem_range.mp hi)), set_CGRAM_addr_eq]
  simp only [List.append_assoc]

/-- Witness for C17: the 8-byte demo glyph written to CGRAM address 8 on the
8-bit demo display. -/
theorem define_char_streams_pattern_witness :
    (∀ i, i < 8 → demo_glyph i < 256)
    ∧ (hd44780_define_char 8 demo_glyph 8 (demo8 0 0)).trace
        = (demo8 0 0).trace
          ++ (bus_write demo_bus true false (0x40 + (8 &&& 0x3F))
          ++ bus_writes demo_bus true
              ((List.range 8).map (fun i => (true, demo_glyph i)))) :=
  ⟨by decide,
    by rw [(define_char_streams_pattern 8 demo_glyph 8 (demo8 0 0) (by decide)).1]; rfl⟩

/-! ## Code-page conversion (C18) -/

/-- C18 at a failing input.  With the header's switch `hd44780_DO_CONVERT_RUS`
defined (and `hd44780_DO_CONVERT`, which no file mentions outside the `#ifdef`
in `hd44780_putchar`, not defined) `hd44780_putchar` is the same function as
without the switch, for every encoding of character constants and every code:
its data byte is the code itself (mod 256).  With Windows-1251 constants the
letter 'Б' is code 193, the table maps it to 160, and `hd44780_putchar` sends
193; it would send 160 only if `hd44780_DO_CONVERT` were defined as well. -/
theorem putchar_header_switch_no_remap (enc : Char → Int) (ch : Int) (w : World) :
    hd44780_putchar_built ⟨true, false⟩ enc ch w = hd44780_putchar ch w
    ∧ hd44780_putchar_built ⟨true, false⟩ enc ch w
        = hd44780_putchar_built ⟨false, false⟩ enc ch w
    ∧ (∃ a, a < 128 ∧ ∃ p, hd44780_putchar_built ⟨true, false⟩ enc ch w
        = { params := { w.params with position := p },
            trace := w.trace ++ (bus_write w.params.bus w.params.bus8 true (ch % 256).toNat
              ++ bus_write w.params.bus w.params.bus8 false (0x80 + a)) })
    ∧ cp1251 'Б' = 193
    ∧ hd44780_convert_rus cp1251 (cp1251 'Б') = 160
    ∧ (hd44780_putchar_built ⟨true, false⟩ cp1251 (cp1251 'Б') (demo8 0 0)).trace
        = bus_write demo_bus true true 193 ++ bus_write demo_bus true false 0x81
    ∧ (hd44780_putchar_built ⟨true, true⟩ cp1251 (cp1251 'Б') (demo8 0 0)).trace
        = bus_write demo_bus true true 160 ++ bus_write demo_bus true false 0x81 := by
  refine ⟨rfl, rfl, putchar_one_data_one_command ch w, ?_, ?_, ?_, ?_⟩ <;> decide

/-! ## Key driver (C20) -/

/-- C20: for a valid `id` (one inside the array), `key_pressed(keys, id)`
returns (pin reads low) XOR `keys[id].nc`: a normally-open key is reported
pressed exactly when `gpio_get` gives 0, a normally-closed key exactly when it
gives a non-zero value; two arrays whose entry `id` agrees in `port`, `gpio` and
`nc` give the same result, whatever their other fields and other entries. -/
theorem key_pressed_level_xor_nc (gpio_get : Nat → Nat → Nat) (keys : List keys_s) (id : Nat)
    (k : keys_s) (hid : keys[id]? = some k) :
    key_pressed gpio_get keys id = some (xor (decide (gpio_get k.port k.gpio = 0)) k.nc)
    ∧ (k.nc = false → (key_pressed gpio_get keys id = some true ↔ gpio_get k.port k.gpio = 0))
    ∧ (k.nc = true → (key_pressed gpio_get keys id = some true ↔ gpio_get k.port k.gpio ≠ 0))
    ∧ (∀ (keys2 : List keys_s) (k2 : keys_s), keys2[id]? = some k2 →
        k2.port = k.port → k2.gpio = k.gpio → k2.nc = k.nc →
        key_pressed gpio_get keys2 id = key_pressed gpio_get keys id) := by
  have h : ∀ (ks : List keys_s) (q : keys_s), ks[id]? = some q →
      key_pressed gpio_get ks id = some (xor (decide (gpio_get q.port q.gpio = 0)) q.nc) := by
    intro ks q hq
    unfold key_pressed
    rw [hq]
  refine ⟨h keys k hid, ?_, ?_, ?_⟩
  · intro hnc
    rw [h keys k hid, hnc]
    simp
  · intro hnc
    rw [h keys k hid, hnc]
    simp
  · intro keys2 k2 hk2 hport hgpio hnc
    rw [h keys k hid, h keys2 k2 hk2, hport, hgpio, hnc]

/-- Witness for C20: the normally-closed demo key with its pin reading high. -/
theorem key_pressed_level_xor_nc_witness :
    demo_keys[1]? = some demo_key_esc
    ∧ key_pressed (fun _ gpios => gpios) demo_keys 1 = some true :=
  ⟨rfl, (key_pressed_level_xor_nc (fun _ gpios => gpios) demo_keys 1 demo_key_esc rfl).1⟩

/-! ## Newline and auto-advance (C22, C23) -/

theorem nl_from_row0 (w : World) (hw : 1 ≤ w.params.width) (hy : w.params.position.y = 0) :
    hd44780_nl w
      = { params := { w.params with position := ⟨0, 1⟩ },
          trace := w.trace ++ bus_write w.params.bus w.params.bus8 false 0xC0 } := by
  rw [nl_eq, hy, show (0 + 1) % 256 = 1 from rfl, gotoxy_row1 0 w (by omega)]

theorem nl_from_row1 (w : World) (hw : 1 ≤ w.params.width) (hy : w.params.position.y = 1) :
    hd44780_nl w
      = { params := { w.params with position := ⟨0, 0⟩ },
          trace := w.trace ++ bus_write w.params.bus w.params.bus8 false 0x80 } := by
  rw [nl_eq, hy, show (1 + 1) % 256 = 2 from rfl, gotoxy_row_ge2 0 2 w (by omega) (by omega)]

/-- C23: with width at least 1 and the cursor on row 0 or 1, `hd44780_nl` sets
the cursor column to 0 and toggles the row: from row 0 to row 1 with the
set-DDRAM-address command for address 0x40 (byte 0xC0), from row 1 to row 0
with the command for address 0x00 (byte 0x80); nothing else in the record
changes, and two newlines in a row leave the cursor at column 0 of the row it
started on. -/
theorem nl_toggles_row (w : World) (hw : 1 ≤ w.params.width)
    (hy : w.params.position.y = 0 ∨ w.params.position.y = 1) :
    (w.params.position.y = 0 →
      hd44780_nl w
        = { params := { w.params with position := ⟨0, 1⟩ },
            trace := w.trace ++ bus_write w.params.bus w.params.bus8 false (0x80 + 0x40) })
    ∧ (w.params.position.y = 1 →
      hd44780_nl w
        = { params := { w.params with position := ⟨0, 0⟩ },
            trace := w.trace ++ bus_write w.params.bus w.params.bus8 false (0x80 + 0x00) })
    ∧ (hd44780_nl w).params.position.x = 0
    ∧ (hd44780_nl w).params.position.y = 1 - w.params.position.y
    ∧ (hd44780_nl (hd44780_nl w)).params.position = ⟨0, w.params.position.y⟩
    ∧ (hd44780_nl (hd44780_nl w)).params
        = { w.params with position := ⟨0, w.params.position.y⟩ } := by
  refine ⟨fun h0 => nl_from_row0 w hw h0, fun h1 => nl_from_row1 w hw h1, ?_, ?_, ?_, ?_⟩
  · rcases hy with h | h
    · rw [nl_from_row0 w hw h]
    · rw [nl_from_row1 w hw h]
  · rcases hy with h | h
    · rw [nl_from_row0 w hw h, h]
    · rw [nl_from_row1 w hw h, h]
  · rcases hy with h | h
    · have h1 := nl_from_row0 w hw h
      have h2 := nl_from_row1 (hd44780_nl w) (by rw [h1]; exact hw) (by rw [h1])
      rw [h2, h]
    · have h1 := nl_from_row1 w hw h
      have h2 := nl_from_row0 (hd44780_nl w) (by rw [h1]; exact hw) (by rw [h1])
      rw [h2, h]
  · rcases hy with h | h
    · have h1 := nl_from_row0 w hw h
      have h2 := nl_from_row1 (hd44780_nl w) (by rw [h1]; exact hw) (by rw [h1])
      rw [h2, h1, h]
    · have h1 := nl_from_row1 w hw h
      have h2 := nl_from_row0 (hd44780_nl w) (by rw [h1]; exact hw) (by rw [h1])
      rw [h2, h1, h]

/-- Witness for C23: the 16-column demo display with the cursor at (7,1). -/
theorem nl_toggles_row_witness :
    1 ≤ (demo4 7 1).params.width
    ∧ ((demo4 7 1).params.position.y = 0 ∨ (demo4 7 1).params.position.y = 1)
    ∧ (hd44780_nl (demo4 7 1)).params.position.x = 0
    ∧ (hd44780_nl (demo4 7 1)).params.position.y = 1 - (demo4 7 1).params.position.y
    ∧ (hd44780_nl (hd44780_nl (demo4 7 1))).params.position = ⟨0, 1⟩ :=
  ⟨by decide, by decide,
    (nl_toggles_row (demo4 7 1) (by decide) (by decide)).2.2.1,
    (nl_toggles_row (demo4 7 1) (by decide) (by decide)).2.2.2.1,
    (nl_toggles_row (demo4 7 1) (by decide) (by decide)).2.2.2.2.1⟩

theorem putchar_advance (ch : Int) (w : World)
    (hx : w.params.position.x < w.params.width) (hw : w.params.width ≤ 255)
    (hy : w.params.position.y = 0 ∨ w.params.position.y = 1) :
    (hd44780_putchar ch w).params
      = { w.params with position :=
            if w.params.position.x + 1 < w.params.width
            then ⟨w.params.position.x + 1, w.params.position.y⟩
            else ⟨0, 1 - w.params.position.y⟩ } := by
  have h256 : (w.params.position.x + 1) % 256 = w.params.position.x + 1 := by omega
  rw [putchar_eq, h256]
  by_cases hlt : w.params.position.x + 1 < w.params.width
  · rw [if_pos hlt]
    rcases hy with h | h
    · rw [h, gotoxy_row0 _ _ (by simpa using hlt)]
      simp [h]
    · rw [h, gotoxy_row1 _ _ (by simpa using hlt)]
  · rw [if_neg hlt, gotoxy_wrap _ _ _ (by simpa using hlt)]
    rcases hy with h | h
    · rw [h]
    · rw [h]

theorem succ_mod_div (n W : Nat) (hW : 0 < W) :
    (n % W + 1 < W → (n + 1) % W = n % W + 1 ∧ (n + 1) / W = n / W)
    ∧ (¬ n % W + 1 < W → (n + 1) % W = 0 ∧ (n + 1) / W = n / W + 1) := by
  have hr : n % W < W := Nat.mod_lt n hW
  have hn : n + 1 = (n % W + 1) + W * (n / W) := by
    have := Nat.mod_add_div n W
    omega
  constructor
  · intro h
    rw [hn, Nat.add_mul_mod_self_left, Nat.add_mul_div_left _ _ hW, Nat.mod_eq_of_lt h,
      Nat.div_eq_of_lt h]
    simp
  · intro h
    have he : n % W + 1 = W := by omega
    rw [hn, Nat.add_mul_mod_self_left, Nat.add_mul_div_left _ _ hW, he, Nat.mod_self,
      Nat.div_self hW]
    exact ⟨rfl, by omega⟩

theorem putchars_cursor (W : Nat) (hW1 : 1 ≤ W) (hW2 : W ≤ 255) (w : World)
    (hwidth : w.params.width = W) (hpos : w.params.position = ⟨0, 0⟩) (chars : List Int) :
    (chars.foldl (fun v ch => hd44780_putchar ch v) w).params
      = { w.params with position := ⟨chars.length % W, (chars.length / W) % 2⟩ } := by
  induction chars using List.reverseRecOn with
  | nil =>
    simp only [List.foldl_nil, List.length_nil, Nat.zero_mod, Nat.zero_div]
    rw [← hpos]
  | append_singleton cs c ih =>
    rw [List.foldl_append, List.foldl_cons, List.foldl_nil]
    have hx : (cs.foldl (fun v ch => hd44780_putchar ch v) w).params.position.x
        < (cs.foldl (fun v ch => hd44780_putchar ch v) w).params.width := by
      rw [ih]
      show cs.length % W < w.params.width
      rw [hwidth]
      exact Nat.mod_lt _ (by omega)
    have hwd : (cs.foldl (fun v ch => hd44780_putchar ch v) w).params.width ≤ 255 := by
      rw [ih]
      show w.params.width ≤ 255
      omega
    have hy : (cs.foldl (fun v ch => hd44780_putchar ch v) w).params.position.y = 0
        ∨ (cs.foldl (fun v ch => hd44780_putchar ch v) w).params.position.y = 1 := by
      rw [ih]
      show cs.length / W % 2 = 0 ∨ cs.length / W % 2 = 1
      omega
    rw [putchar_advance c _ hx hwd hy, ih]
    simp only [List.length_append, List.length_singleton, hwidth]
    obtain ⟨h1, h2⟩ := succ_mod_div cs.length W (by omega)
    by_cases hlt : cs.length % W + 1 < W
    · rw [if_pos hlt, (h1 hlt).1, (h1 hlt).2]
    · rw [if_neg hlt, (h2 hlt).1, (h2 hlt).2]
      have : 1 - cs.length / W % 2 = (cs.length / W + 1) % 2 := by omega
      rw [this]

/-- C22: on a display of width W with 1 <= W <= 255 and the cursor at (0,0),
sending any n characters with `hd44780_putchar` leaves width, bus mode and bus
as they were and the cursor at column n mod W, row (n div W) mod 2; so W
characters end at (0,1) and 2*W characters end at (0,0) again. -/
theorem putchar_auto_advance (W : Nat) (hW1 : 1 ≤ W) (hW2 : W ≤ 255) (w : World)
    (hwidth : w.params.width = W) (hpos : w.params.position = ⟨0, 0⟩) (chars : List Int) :
    (chars.foldl (fun v ch => hd44780_putchar ch v) w).params
        = { w.params with position := ⟨chars.length % W, (chars.length / W) % 2⟩ }
    ∧ (chars.foldl (fun v ch => hd44780_putchar ch v) w).params.position.x = chars.length % W
    ∧ (chars.foldl (fun v ch => hd44780_putchar ch v) w).params.position.y
        = (chars.length / W) % 2
    ∧ (chars.length = W →
        (chars.foldl (fun v ch => hd44780_putchar ch v) w).params.position = ⟨0, 1⟩)
    ∧ (chars.length = 2 * W →
        (chars.foldl (fun v ch => hd44780_putchar ch v) w).params.position = ⟨0, 0⟩) := by
  have h := putchars_cursor W hW1 hW2 w hwidth hpos chars
  refine ⟨h, by rw [h], by rw [h], ?_, ?_⟩
  · intro hl
    rw [h, hl, Nat.mod_self, Nat.div_self (by omega)]
  · intro hl
    rw [h, hl, Nat.mul_mod_left, Nat.mul_div_cancel _ (by omega : 0 < W)]

/-- Witness for C22: sixteen characters on the 16-column demo display end at
(0,1). -/
theorem putchar_auto_advance_witness :
    1 ≤ 16 ∧ 16 ≤ 255 ∧ (demo4 0 0).params.width = 16 ∧ (demo4 0 0).params.position = ⟨0, 0⟩
    ∧ ((List.replicate 16 (65 : Int)).foldl (fun v ch => hd44780_putchar ch v)
        (demo4 0 0)).params.position = ⟨0, 1⟩ :=
  ⟨by decide, by decide, rfl, rfl,
    (putchar_auto_advance 16 (by decide) (by decide) (demo4 0 0) rfl rfl
      (List.replicate 16 (65 : Int))).2.2.2.1 rfl⟩

/-! ## Lines used in 4-bit mode (C21) -/

theorem drive_on_lines (t : Target) (lines : List hd44780_gpio) (p : hd44780_gpio) (v : Bool)
    (hp : p ∈ lines) : (drive p v).on_lines t lines = true := by
  cases v <;> simpa [drive, Event.on_lines] using hp

theorem nibble_cycle_on_lines (t : Target) (bus : hd44780_bus) (rs : Bool) (n : Nat) :
    ∀ ev ∈ nibble_cycle bus rs n, ev.on_lines t (lines4 bus) = true := by
  intro ev hev
  simp only [nibble_cycle, enable_pulse, List.cons_append, List.nil_append, List.mem_cons,
    List.mem_singleton, List.not_mem_nil, or_false] at hev
  rcases hev with h | h | h | h | h | h | h | h | h | h <;> rw [h]
  · exact drive_on_lines t _ _ _ (by simp [lines4])
  · exact drive_on_lines t _ _ _ (by simp [lines4])
  · exact drive_on_lines t _ _ _ (by simp [lines4])
  · exact drive_on_lines t _ _ _ (by simp [lines4])
  · exact drive_on_lines t _ _ _ (by simp [lines4])
  · exact drive_on_lines t _ _ _ (by simp [lines4])
  · exact drive_on_lines t _ _ _ (by simp [lines4])
  · rfl
  · exact drive_on_lines t _ _ _ (by simp [lines4])
  · rfl

theorem write_4bit_eq (rs : Bool) (data : Nat) (w : World) (hmode : w.params.bus8 = false) :
    hd44780_write rs data w
      = { w with trace := w.trace ++ (nibble_cycle w.params.bus rs ((data >>> 4) % 256)
            ++ nibble_cycle w.params.bus rs data) } := by
  unfold hd44780_write
  rw [if_neg (by rw [hmode]; decide)]
  simp only [write_half_byte_eq, List.append_assoc]

theorem bus_writes_4bit_on_lines (t : Target) (bus : hd44780_bus) (l : List (Bool × Nat)) :
    ∀ ev ∈ bus_writes bus false l, ev.on_lines t (lines4 bus) = true := by
  induction l with
  | nil => intro ev hev; simp [bus_writes] at hev
  | cons hd rest ih =>
    intro ev hev
    obtain ⟨d, b⟩ := hd
    simp only [bus_writes, bus_write, Bool.false_eq_true, if_false, List.mem_append] at hev
    rcases hev with (h | h) | h
    · exact nibble_cycle_on_lines t bus _ _ ev h
    · exact nibble_cycle_on_lines t bus _ _ ev h
    · exact ih ev h

theorem priming_on_lines (t : Target) (bus : hd44780_bus) :
    ∀ ev ∈ priming bus, ev.on_lines t (lines4 bus) = true := by
  intro ev hev
  simp only [priming, List.mem_append, List.mem_singleton] at hev
  rcases hev with (h | h) | (h | h) | (h | h) | h
  · exact nibble_cycle_on_lines t bus _ _ ev h
  · rw [h]; rfl
  · exact nibble_cycle_on_lines t bus _ _ ev h
  · rw [h]; rfl
  · exact nibble_cycle_on_lines t bus _ _ ev h
  · rw [h]; rfl
  · exact nibble_cycle_on_lines t bus _ _ ev h

theorem lines_setup_on_lines (t : Target) (lines : List hd44780_gpio) (ps : List hd44780_gpio)
    (hsub : ∀ p ∈ ps, p ∈ lines) :
    ∀ ev ∈ (lines_setup t ps).1, ev.on_lines t lines = true := by
  induction ps with
  | nil => intro ev hev; simp [lines_setup] at hev
  | cons p rest ih =>
    intro ev hev
    have hp : p ∈ lines := hsub p (List.mem_cons_self p rest)
    simp only [lines_setup] at hev
    cases hc : port2RCC t p.port with
    | none => rw [hc] at hev; simp at hev
    | some clken =>
      rw [hc] at hev
      simp only [List.mem_append] at hev
      rcases hev with h | h
      · simp only [line_setup, List.mem_cons, List.mem_singleton, List.not_mem_nil,
          or_false] at h
        rcases h with h | h | h <;> rw [h]
        · simp only [Event.on_lines, List.any_eq_true, decide_eq_true_eq]
          exact ⟨p, hp, hc⟩
        · simpa [Event.on_lines] using hp
        · simpa [Event.on_lines] using hp
      · exact ih (fun q hq => hsub q (List.mem_cons_of_mem p hq)) ev h

/-- A property of the state that survives every call of the driver: it is
enough that it survives a bus write, a delay and an assignment to the cursor. -/
theorem ops_preserve_calls (P : World → Prop)
    (hwrite : ∀ rs data w, P w → P (hd44780_write rs data w))
    (hsleep : ∀ ms w, P w → P (sleep_ms ms w))
    (hpos : ∀ (w : World) (p : position_s), P w →
      P { w with params := { w.params with position := p } }) :
    ∀ (ops : List Op) (w w2 : World), P w → run_ops ops w = Except.ok w2 → P w2 := by
  have hgoto : ∀ x y w, P w → P (hd44780_gotoxy x y w) := by
    intro x y w hP
    obtain ⟨a, ha, p, hg⟩ := gotoxy_one_command x y w
    have h1 := hpos _ p (hwrite false (0x80 + a) w hP)
    rw [write_eq false _ (by omega)] at h1
    rw [hg]
    exact h1
  have hnl : ∀ w, P w → P (hd44780_nl w) := fun w hP => hgoto _ _ w hP
  have hpc : ∀ ch w, P w → P (hd44780_putchar ch w) :=
    fun ch w hP => hgoto _ _ _ (hwrite true _ w hP)
  have hclear : ∀ w, P w → P (hd44780_clear w) :=
    fun w hP => hwrite false _ _ (hpos _ _ (hpos _ _ hP))
  have hhome : ∀ w, P w → P (hd44780_home w) :=
    fun w hP => hsleep 2 _ (hwrite false _ _ (hpos _ _ (hpos _ _ hP)))
  have hstep : ∀ (op : Op) (w w2 : World), P w → op.apply w = Except.ok w2 → P w2 := by
    intro op w w2 hP h
    cases op with
    | gotoxy x y =>
      simp only [Op.apply, Except.ok.injEq] at h; rw [← h]; exact hgoto x y w hP
    | nl => simp only [Op.apply, Except.ok.injEq] at h; rw [← h]; exact hnl w hP
    | busy => simp only [Op.apply, Except.ok.injEq] at h; rw [← h]; exact hsleep 1 w hP
    | clear => simp only [Op.apply, Except.ok.injEq] at h; rw [← h]; exact hclear w hP
    | home => simp only [Op.apply, Except.ok.injEq] at h; rw [← h]; exact hhome w hP
    | mode inc shift =>
      simp only [Op.apply, Except.ok.injEq] at h; rw [← h]; exact hwrite false _ w hP
    | dispay_ctrl a b c =>
      simp only [Op.apply, Except.ok.injEq] at h; rw [← h]; exact hwrite false _ w hP
    | cursor_ctrl a b =>
      simp only [Op.apply, Except.ok.injEq] at h; rw [← h]; exact hwrite false _ w hP
    | fnc a n b =>
      simp only [Op.apply, Except.ok.injEq] at h; rw [← h]; exact hwrite false _ w hP
    | set_CGRAM_addr a =>
      simp only [Op.apply, Except.ok.injEq] at h; rw [← h]; exact hwrite false _ w hP
    | set_DDRAM_addr a =>
      simp only [Op.apply, Except.ok.injEq] at h; rw [← h]; exact hwrite false _ w hP
    | putchar ch =>
      simp only [Op.apply, Except.ok.injEq] at h; rw [← h]; exact hpc ch w hP
    | putchar_xy x y ch =>
      simp only [Op.apply, Except.ok.injEq] at h; rw [← h]
      exact hpc ch _ (hgoto x y w hP)
    | printf stack rendered =>
      simp only [Op.apply, hd44780_printf] at h
      split at h
      · simp at h
      · rename_i r hr
        simp only [Except.ok.injEq] at h
        rw [← h]
        exact vsprintf_preserves P stack rendered hnl hpc w r hP hr
    | printf_xy x y stack rendered =>
      simp only [Op.apply, hd44780_printf_xy] at h
      split at h
      · simp at h
      · rename_i r hr
        simp only [Except.ok.injEq] at h
        rw [← h]
        exact vsprintf_preserves P stack rendered hnl hpc _ r (hgoto x y w hP) hr
  intro ops
  induction ops with
  | nil =>
    intro w w2 hP h
    simp only [run_ops, Except.ok.injEq] at h
    rw [← h]; exact hP
  | cons op rest ih =>
    intro w w2 hP h
    simp only [run_ops] at h
    cases hop : op.apply w with
    | error f => rw [hop] at h; simp at h
    | ok w1 =>
      rw [hop] at h
      exact ih w1 w2 (hstep op w w1 hP hop) h

theorem init_lines_4bit (bus : hd44780_bus) : init_lines bus false = lines4 bus := by
  simp [init_lines, lines4]

theorem init_4bit_on_lines (t : Target) (bus : hd44780_bus) (width num_lines : Nat)
    (big_fonts : Bool) (w0 : World) :
    (hd44780_init t bus width false num_lines big_fonts w0).world.params.bus8 = false
    ∧ (hd44780_init t bus width false num_lines big_fonts w0).world.params.bus = bus
    ∧ ∃ evs, (hd44780_init t bus width false num_lines big_fonts w0).world.trace
        = w0.trace ++ evs
      ∧ ∀ ev ∈ evs, ev.on_lines t (lines4 bus) = true := by
  have hsetup := lines_setup_on_lines t (lines4 bus) (init_lines bus false)
    (by rw [init_lines_4bit]; exact fun p hp => hp)
  rw [init_eq]
  split
  · refine ⟨rfl, rfl, _, rfl, ?_⟩
    intro ev hev
    simp only [Bool.false_eq_true, if_false, List.mem_append, List.mem_singleton] at hev
    rcases hev with h | h | h | h | h
    · exact hsetup ev h
    · rw [h]; rfl
    · exact priming_on_lines t bus ev h
    · exact bus_writes_4bit_on_lines t bus _ ev h
    · rw [h]; rfl
  · exact ⟨rfl, rfl, _, rfl, hsetup⟩

/-- C21: in 4-bit mode, take the state in which `hd44780_init` ended (returned,
or halted in `port2RCC`) and any sequence of driver calls that completes from
there (commands, gotoxy, nl, putchar, putchar_xy, printf, printf_xy, with any
arguments).  Every external call made since before init is a delay or is made
on one of the seven lines RS, E, RNW, DB7..DB4: `gpio_set`, `gpio_clear` and
`gpio_mode_setup` name the pin of one of them, and every clock enable is for
the port of one of them.  So a pin that is not the pin of one of these seven
lines (DB3..DB0 wired to pins of their own) is never set, cleared or
configured, and a clock id that belongs to none of their ports is never
enabled. -/
theorem four_bit_mode_touches_seven_lines (t : Target) (bus : hd44780_bus)
    (width num_lines : Nat) (big_fonts : Bool) (w0 : World) (ops : List Op) (w2 : World)
    (hrun : run_ops ops (hd44780_init t bus width false num_lines big_fonts w0).world
      = Except.ok w2) :
    ∃ evs, w2.trace = w0.trace ++ evs
      ∧ (∀ ev ∈ evs, ev.on_lines t
          [bus.rs, bus.e, bus.rnw, bus.db7, bus.db6, bus.db5, bus.db4] = true)
      ∧ (∀ p : hd44780_gpio,
          p ∉ [bus.rs, bus.e, bus.rnw, bus.db7, bus.db6, bus.db5, bus.db4] →
          Event.gpio_set p.port p.gpio ∉ evs
          ∧ Event.gpio_clear p.port p.gpio ∉ evs
          ∧ ∀ mode pull_up_down, Event.gpio_mode_setup p.port mode pull_up_down p.gpio ∉ evs)
      ∧ (∀ clken : Nat,
          (∀ q ∈ [bus.rs, bus.e, bus.rnw, bus.db7, bus.db6, bus.db5, bus.db4],
            port2RCC t q.port ≠ some clken) →
          Event.rcc_periph_clock_enable clken ∉ evs) := by
  have hinv := ops_preserve_calls
    (fun w => w.params.bus8 = false ∧ w.params.bus = bus
      ∧ ∃ evs, w.trace = w0.trace ++ evs ∧ ∀ ev ∈ evs, ev.on_lines t (lines4 bus) = true)
    (by
      intro rs data w hP
      obtain ⟨h8, hb, evs, htr, hev⟩ := hP
      rw [write_4bit_eq rs data w h8]
      refine ⟨h8, hb, evs ++ (nibble_cycle w.params.bus rs ((data >>> 4) % 256)
        ++ nibble_cycle w.params.bus rs data), ?_, ?_⟩
      · show w.trace ++ _ = _
        rw [htr, List.append_assoc]
      · intro ev h
        simp only [List.mem_append] at h
        rcases h with h | h | h
        · exact hev ev h
        · rw [hb] at h; exact nibble_cycle_on_lines t bus _ _ ev h
        · rw [hb] at h; exact nibble_cycle_on_lines t bus _ _ ev h)
    (by
      intro ms w hP
      obtain ⟨h8, hb, evs, htr, hev⟩ := hP
      refine ⟨h8, hb, evs ++ [Event.sleep_ms ms], ?_, ?_⟩
      · show w.trace ++ [Event.sleep_ms ms] = _
        rw [htr, List.append_assoc]
      · intro ev h
        simp only [List.mem_append, List.mem_singleton] at h
        rcases h with h | h
        · exact hev ev h
        · rw [h]; rfl)
    (by intro w p hP; exact hP)
    ops _ w2 (by beta_reduce; exact init_4bit_on_lines t bus width num_lines big_fonts w0) hrun
  obtain ⟨_, _, evs, htr, hev⟩ := hinv
  refine ⟨evs, htr, hev, ?_, ?_⟩
  · intro p hp
    have hfalse : decide (p ∈ lines4 bus) = false := by
      simpa [lines4] using hp
    refine ⟨?_, ?_, ?_⟩
    · intro hmem
      have h := hev _ hmem
      simp only [Event.on_lines] at h
      rw [hfalse] at h
      exact Bool.noConfusion h
    · intro hmem
      have h := hev _ hmem
      simp only [Event.on_lines] at h
      rw [hfalse] at h
      exact Bool.noConfusion h
    · intro mode pull_up_down hmem
      have h := hev _ hmem
      simp only [Event.on_lines] at h
      rw [hfalse] at h
      exact Bool.noConfusion h
  · intro clken hnone hmem
    have h := hev _ hmem
    simp only [Event.on_lines, List.any_eq_true, decide_eq_true_eq] at h
    obtain ⟨q, hq, hc⟩ := h
    exact hnone q hq hc

/-- Witness for C21: init of the 4-bit demo display, then a character put at
(3,1) and a clear. -/
theorem four_bit_mode_touches_seven_lines_witness :
    run_ops [Op.putchar_xy 3 1 65, Op.clear]
        (hd44780_init demo_target demo_bus 16 false 2 false (demo4 3 1)).world
      = Except.ok (hd44780_clear (hd44780_putchar_xy 3 1 65
          (hd44780_init demo_target demo_bus 16 false 2 false (demo4 3 1)).world))
    ∧ ∃ evs, (hd44780_clear (hd44780_putchar_xy 3 1 65
          (hd44780_init demo_target demo_bus 16 false 2 false (demo4 3 1)).world)).trace
        = (demo4 3 1).trace ++ evs
      ∧ (∀ ev ∈ evs, ev.on_lines demo_target
          [demo_bus.rs, demo_bus.e, demo_bus.rnw, demo_bus.db7, demo_bus.db6, demo_bus.db5,
           demo_bus.db4] = true)
      ∧ Event.gpio_clear demo_bus.db3.port demo_bus.db3.gpio ∉ evs :=
  ⟨rfl,
    match four_bit_mode_touches_seven_lines demo_target demo_bus 16 2 false (demo4 3 1)
      [Op.putchar_xy 3 1 65, Op.clear] _ rfl with
    | ⟨evs, h1, h2, h3, _⟩ => ⟨evs, h1, h2, (h3 demo_bus.db3 (by decide)).2.1⟩⟩

end HD44780
